import Mathlib

/-!
Verification of the status-derivation and synchronization core of the
dutch-bottle-collect-checker repository.

The development shallowly embeds the reconciler script
(scripts/sync-supermarkets.js), the serverless sync variant
(api/sync-supermarkets.js), the front-end places service and database
service (src/services), and the SQL admin functions of the initial schema
migration.

Modelling conventions:
* JavaScript strings are modelled as `List Char` (`Str`); all string
  operations used by the source (split, trim, substring search, regular
  expression matching for the Dutch postal-code pattern) are implemented
  below as executable functions on `List Char`.
* Latitude/longitude values are modelled in tenths of a degree as `Int`
  (so the bound 53.7 becomes 537); the bounding-box comparisons are
  order-preserving under this fixed-point convention.
* Timestamps are modelled as `Int` milliseconds since an arbitrary epoch,
  matching the JavaScript `Date` arithmetic (24 hours = 86400000 ms).
* Database identifiers (UUIDs) are modelled as `Nat`.
* Fallible external interactions (Supabase queries, the Places API) are
  modelled with explicit error flags or `Except` oracles.
-/

namespace BottleCheck

/-- JavaScript strings are modelled as lists of characters. -/
abbrev Str := List Char

/-- Embed a Lean string literal into the model's string type. -/
def str (s : String) : Str := s.toList

/-- JS `String.prototype.split(', ')`: split on the exact two-character
separator `", "`, non-overlapping, scanning left to right.
`acc` holds the current segment reversed. -/
def splitCommaSpaceGo : Str → Str → List Str
  | acc, [] => [acc.reverse]
  | acc, ',' :: ' ' :: rest => acc.reverse :: splitCommaSpaceGo [] rest
  | acc, c :: rest => splitCommaSpaceGo (c :: acc) rest

/-- JS `s.split(', ')`. -/
def splitCommaSpace (s : Str) : List Str := splitCommaSpaceGo [] s

/-- JS `s.split(sep)` for a single-character separator. -/
def splitCharGo (sep : Char) : Str → Str → List Str
  | acc, [] => [acc.reverse]
  | acc, c :: rest =>
    if c = sep then acc.reverse :: splitCharGo sep [] rest
    else splitCharGo sep (c :: acc) rest

/-- JS `s.split(sep)` for a single-character separator. -/
def splitChar (sep : Char) (s : Str) : List Str := splitCharGo sep [] s

/-- JS `String.prototype.trim()`: strip whitespace from both ends. -/
def jsTrim (s : Str) : Str :=
  ((s.dropWhile Char.isWhitespace).reverse.dropWhile Char.isWhitespace).reverse

/-- JS `String.prototype.toLowerCase()` (ASCII letters suffice for the
chain names appearing in the source). -/
def lowerStr (s : Str) : Str := s.map Char.toLower

/-- JS `String.prototype.includes(needle)`: substring containment. -/
def containsSub (needle : Str) : Str → Bool
  | [] => needle.isEmpty
  | c :: rest => needle.isPrefixOf (c :: rest) || containsSub needle rest

/-- Word character for the regex word-boundary `\b`: `[A-Za-z0-9_]`. -/
def isWordChar (c : Char) : Bool :=
  ('A' ≤ c && c ≤ 'Z') || ('a' ≤ c && c ≤ 'z') || ('0' ≤ c && c ≤ '9') || c = '_'

/-- ASCII digit, the regex class `\d`. -/
def isDigit09 (c : Char) : Bool := '0' ≤ c && c ≤ '9'

/-- Uppercase ASCII letter, the regex class `[A-Z]`. -/
def isUpperAZ (c : Char) : Bool := 'A' ≤ c && c ≤ 'Z'

/-- The regex trailing word boundary `\b` after a word character: the next
character, if any, must not be a word character. -/
def boundaryAfter : Str → Bool
  | [] => true
  | c :: _ => !isWordChar c

/-- Attempt to match the postal-code body `\d{4}\s?[A-Z]{2}` at the head of
`cs`, honouring the trailing `\b` and the greedy optional whitespace
(the whitespace alternative is tried first, as a backtracking regex
engine does). Returns the matched text. -/
def postalBodyAt (cs : Str) : Option Str :=
  match cs with
  | d1 :: d2 :: d3 :: d4 :: rest =>
    if isDigit09 d1 && isDigit09 d2 && isDigit09 d3 && isDigit09 d4 then
      match rest with
      | w :: l1 :: l2 :: rest2 =>
        if w.isWhitespace && isUpperAZ l1 && isUpperAZ l2 && boundaryAfter rest2 then
          some [d1, d2, d3, d4, w, l1, l2]
        else
          match rest with
          | m1 :: m2 :: rest3 =>
            if isUpperAZ m1 && isUpperAZ m2 && boundaryAfter rest3 then
              some [d1, d2, d3, d4, m1, m2]
            else none
          | _ => none
      | m1 :: m2 :: rest3 =>
        if isUpperAZ m1 && isUpperAZ m2 && boundaryAfter rest3 then
          some [d1, d2, d3, d4, m1, m2]
        else none
      | _ => none
    else none
  | _ => none

/-- Scan for the leftmost match of `/\b(\d{4}\s?[A-Z]{2})\b/` in a string.
`prev` is the character before the current position (for the leading
`\b`, which requires a non-word character or the start of the string
before the first digit). -/
def findPostalGo (prev : Option Char) : Str → Option Str
  | [] => none
  | c :: rest =>
    let boundaryOk := match prev with
      | none => true
      | some p => !isWordChar p
    match (if boundaryOk then postalBodyAt (c :: rest) else none) with
    | some m => some m
    | none => findPostalGo (some c) rest

/-- First match of the Dutch postal-code regex in a string, as in
`part.match(/\b(\d{4}\s?[A-Z]{2})\b/)`. -/
def findPostal (s : Str) : Option Str := findPostalGo none s

/-- JS `s.replace(/\s+/g, ' ')`: collapse every maximal whitespace run
into a single space. `inWs` records whether the previous character was
part of a whitespace run. -/
def collapseWsGo : Bool → Str → Str
  | _, [] => []
  | inWs, c :: rest =>
    if c.isWhitespace then
      if inWs then collapseWsGo true rest
      else ' ' :: collapseWsGo true rest
    else c :: collapseWsGo false rest

/-- JS `s.replace(/\s+/g, ' ')`. -/
def normalizeSpaces (s : Str) : Str := collapseWsGo false s

/-- JS `s.replace(pat, '')` for a plain-string pattern: remove the first
occurrence of `pat`, leaving the string unchanged when `pat` does not
occur. -/
def removeFirstOccurrence (pat : Str) : Str → Str
  | [] => []
  | c :: rest =>
    if pat.isPrefixOf (c :: rest) then (c :: rest).drop pat.length
    else c :: removeFirstOccurrence pat rest

/-- JS `parts.join(', ')`. -/
def joinCommaSpace (parts : List Str) : Str := List.intercalate (str ", ") parts

/-- JS number rendering for the model's fixed-point coordinates, used when
building the template-literal dedupe key. -/
def intToStr (i : Int) : Str := (Int.repr i).toList

/-- Byte-wise string order used to model `ORDER BY chain`. -/
def strLe : Str → Str → Bool
  | [], _ => true
  | _ :: _, [] => false
  | a :: as, b :: bs => if a < b then true else if b < a then false else strLe as bs

/-! ## Data model -/

/-- One point of a Google Places opening-hours period (`{day, time}`). -/
structure PeriodPoint where
  day : Nat
  time : Str
  deriving DecidableEq, Repr

/-- A Google Places opening-hours period: an opening point and an optional
closing point (absent for 24-hour days). -/
structure RawPeriod where
  openPoint : PeriodPoint
  closePoint : Option PeriodPoint
  deriving DecidableEq, Repr

/-- The raw `opening_hours` field of a Places result. -/
structure RawOpeningHours where
  open_now : Option Bool
  periods : Option (List RawPeriod)
  deriving DecidableEq, Repr

/-- A raw Google Places text-search result (the fields the sync scripts
read; `geometry.location` is flattened into `lat`/`lng`). -/
structure Place where
  place_id : Option Str
  name : Str
  formatted_address : Str
  lat : Int
  lng : Int
  business_status : Option Str
  opening_hours : Option RawOpeningHours
  deriving DecidableEq, Repr

/-- A normalized supermarket record as produced by
`convertToSupermarketData` in scripts/sync-supermarkets.js and consumed
by `upsertSupermarkets`. -/
structure SupermarketData where
  name : Str
  chain : Str
  address : Str
  city : Str
  postal_code : Str
  latitude : Int
  longitude : Int
  status : Str
  google_place_id : Option Str
  opening_hours : Option (List Str)
  deriving DecidableEq, Repr

/-- A row of the `supermarkets` table. -/
structure MarketRow where
  id : Nat
  name : Str
  chain : Str
  address : Str
  city : Str
  postal_code : Str
  latitude : Int
  longitude : Int
  status : Str
  google_place_id : Option Str
  opening_hours : Option (List Str)
  created_at : Int
  last_updated : Int
  deriving DecidableEq, Repr

/-- A row of the `supermarket_incidents` table. -/
structure Incident where
  id : Nat
  supermarket_id : Nat
  incident_type : Str
  description : Option Str
  reporter_email : Option Str
  reporter_name : Option Str
  priority : Str
  status : Str
  admin_notes : Option Str
  created_at : Int
  updated_at : Int
  deriving DecidableEq, Repr

/-- The persistent store's tables relevant to status resolution. -/
structure Db where
  supermarkets : List MarketRow
  incidents : List Incident
  deriving DecidableEq, Repr

/-- Environment of one sync-script run: the store contents, failure flags
for the two Supabase queries issued by `hasRecentIncidents` (a flag set
models the query returning an error), and the current time. -/
structure SyncEnv where
  db : Db
  smLookupFails : Bool
  incQueryFails : Bool
  now : Int
  deriving DecidableEq, Repr

/-- The `supermarkets` table together with the id generator, as seen by
the upsert phase. -/
structure Store where
  rows : List MarketRow
  nextId : Nat
  deriving DecidableEq, Repr

/-! ## Constants and small helpers of scripts/sync-supermarkets.js -/

/-- `DUTCH_SUPERMARKET_CHAINS` of scripts/sync-supermarkets.js (the
commented-out entries are omitted there). -/
def DUTCH_SUPERMARKET_CHAINS : List Str :=
  [str "Albert Heijn", str "Jumbo", str "Lidl"]

/-- `isInNetherlands`: bounding-box test against `NETHERLANDS_BOUNDS`
(south 50.5, north 53.7, west 3.2, east 7.3 — in tenths of a degree). -/
def isInNetherlands (lat lng : Int) : Bool :=
  decide (lat ≥ 505) && decide (lat ≤ 537) && decide (lng ≥ 32) && decide (lng ≤ 73)

/-- `getChainName`: first configured chain whose lowercase name is a
substring of the lowercase place name, defaulting to `'Onbekend'`. -/
def getChainName (placeName : Str) : Str :=
  (DUTCH_SUPERMARKET_CHAINS.find? fun chainName =>
    containsSub (lowerStr chainName) (lowerStr placeName)).getD (str "Onbekend")

/-! ## hasRecentIncidents and determineStatus (scripts/sync-supermarkets.js) -/

/-- 24 hours in milliseconds, as computed by
`setHours(getHours() - 24)`. -/
def twentyFourHoursMs : Int := 86400000

/-- JS truthiness of the optional `googlePlaceId` argument: `null`,
`undefined` and the empty string are falsy. -/
def gidTruthy : Option Str → Bool
  | none => false
  | some g => !g.isEmpty

/-- `hasRecentIncidents`: look up the supermarket id by `google_place_id`
(`.single()` fails unless exactly one row matches), then test for an
incident of status open/investigating created in the last 24 hours.
Every failure path — falsy id, query error, missing or ambiguous
supermarket row — returns `false`. -/
def hasRecentIncidents (env : SyncEnv) (googlePlaceId : Option Str) : Bool :=
  match googlePlaceId with
  | none => false
  | some gid =>
    if gid.isEmpty then false
    else if env.smLookupFails then false
    else
      match env.db.supermarkets.filter (fun r => r.google_place_id == some gid) with
      | [sm] =>
        if env.incQueryFails then false
        else env.db.incidents.any fun inc =>
          inc.supermarket_id == sm.id &&
          decide (inc.created_at ≥ env.now - twentyFourHoursMs) &&
          (inc.status == str "open" || inc.status == str "investigating")
      | _ => false

/-- The `place.opening_hours?.open_now` optional chain. -/
def openNowFlag (place : Place) : Option Bool :=
  place.opening_hours.bind fun oh => oh.open_now

/-- `determineStatus` of scripts/sync-supermarkets.js: closure flags first,
then recent incidents, then the live open-now flag, else closed. -/
def determineStatus (env : SyncEnv) (place : Place) (googlePlaceId : Option Str) : Str :=
  if place.business_status == some (str "CLOSED_PERMANENTLY") then str "closed"
  else if place.business_status == some (str "CLOSED_TEMPORARILY") then str "closed"
  else if gidTruthy googlePlaceId && hasRecentIncidents env googlePlaceId then str "closed"
  else
    match openNowFlag place with
    | some b => if b then str "open" else str "closed"
    | none => str "closed"

/-! ## Opening-hours expansion (scripts/sync-supermarkets.js) -/

/-- `formatTime`: reformat `HHMM` to `HH:MM`, returning other inputs
unchanged. -/
def formatTime (t : Str) : Str :=
  if t.length ≠ 4 then t else t.take 2 ++ [':'] ++ t.drop 2

/-- The value stored for one period: `"open-close"` when a closing time
exists, else the literal `'24 hours'`. -/
def periodValue (p : RawPeriod) : Str :=
  match p.closePoint with
  | some c => formatTime p.openPoint.time ++ ['-'] ++ formatTime c.time
  | none => str "24 hours"

/-- `parseOpeningHours`: expand raw per-day periods into a seven-day table
(indices 0..6 = sunday..saturday), each day defaulting to `'Closed'`.
A period whose day index is out of range leaves the seven named days
untouched (`List.set` is a no-op out of range; in JS such a period only
creates a stray extra key). -/
def parseOpeningHours (place : Place) : Option (List Str) :=
  match place.opening_hours with
  | none => none
  | some oh =>
    match oh.periods with
    | none => none
    | some ps =>
      some (ps.foldl (fun table p => table.set p.openPoint.day (periodValue p))
        (List.replicate 7 (str "Closed")))

/-! ## convertToSupermarketData (scripts/sync-supermarkets.js) -/

/-- The postal-code loop of `convertToSupermarketData`: scan the
comma-separated address parts from the end and return the index, the
part, and the matched postal text of the first (right-most) part
containing a postal-code match. -/
def findPostalPart (parts : List Str) : Option (Nat × Str × Str) :=
  parts.enum.reverse.findSome? fun ip =>
    (findPostal ip.2).map fun m => (ip.1, ip.2, m)

/-- The country-name literals stripped from the street address. -/
def countryLiterals : List Str :=
  [str "Netherlands", str "Nederland", str "The Netherlands"]

/-- `convertToSupermarketData` of scripts/sync-supermarkets.js: best-effort
Dutch address parsing with its chain of fallbacks, followed by chain
matching, status resolution and opening-hours expansion. -/
def convertToSupermarketData (env : SyncEnv) (place : Place) : SupermarketData :=
  let addressParts := splitCommaSpace place.formatted_address
  let found := findPostalPart addressParts
  let postalCode0 :=
    match found with
    | some f => normalizeSpaces f.2.2
    | none => []
  let city1 :=
    match found with
    | some f => jsTrim (removeFirstOccurrence (normalizeSpaces f.2.2) f.2.1)
    | none => []
  let parts1 :=
    match found with
    | some f => addressParts.eraseIdx f.1
    | none => addressParts
  let cityParts2 :=
    if city1.isEmpty && !parts1.isEmpty then
      let lastPart := (parts1.getLast?).getD []
      if !lastPart.any isDigit09 && decide (lastPart.length > 2) &&
          decide (lastPart.length < 50) then
        (lastPart, parts1.dropLast)
      else (city1, parts1)
    else (city1, parts1)
  let filteredParts := cityParts2.2.filter fun part =>
    !(countryLiterals.contains (jsTrim part))
  let address1 := jsTrim (joinCommaSpace filteredParts)
  let city3 :=
    if cityParts2.1.isEmpty && !place.name.isEmpty then
      let nameParts := splitChar ' ' place.name
      if decide (nameParts.length > 2) then
        let possibleCity := (nameParts.getLast?).getD []
        if decide (possibleCity.length > 3) && !possibleCity.any isDigit09 then
          possibleCity
        else cityParts2.1
      else cityParts2.1
    else cityParts2.1
  let postalCode := jsTrim postalCode0
  let city := jsTrim city3
  let address2 := jsTrim address1
  let address3 :=
    if address2.isEmpty && !place.formatted_address.isEmpty then
      let firstPart := ((splitChar ',' place.formatted_address).head?).getD []
      if !firstPart.isEmpty && jsTrim firstPart ≠ place.name then jsTrim firstPart
      else address2
    else address2
  { name := place.name
    chain := getChainName place.name
    address := if address3.isEmpty then str "Onbekend adres" else address3
    city := if city.isEmpty then str "Onbekende stad" else city
    postal_code := postalCode
    latitude := place.lat
    longitude := place.lng
    status := determineStatus env place place.place_id
    google_place_id := place.place_id
    opening_hours := parseOpeningHours place }

/-! ## deduplicateResults (scripts/sync-supermarkets.js) -/

/-- The dedupe key: the Google Place id when truthy, else the template
literal over name and coordinates. -/
def dedupKey (r : SupermarketData) : Str :=
  match r.google_place_id with
  | some g =>
    if g.isEmpty then r.name ++ ['-'] ++ intToStr r.latitude ++ ['-'] ++ intToStr r.longitude
    else g
  | none => r.name ++ ['-'] ++ intToStr r.latitude ++ ['-'] ++ intToStr r.longitude

/-- The scan of `deduplicateResults`, threading the set of seen keys. -/
def dedupGo (seen : List Str) : List SupermarketData → List SupermarketData
  | [] => []
  | r :: rest =>
    if dedupKey r ∈ seen then dedupGo seen rest
    else r :: dedupGo (dedupKey r :: seen) rest

/-- `deduplicateResults`: keep the first record per dedupe key. -/
def deduplicateResults (results : List SupermarketData) : List SupermarketData :=
  dedupGo [] results

/-! ## Front-end / serverless variants (src/services/placesService.ts and
api/sync-supermarkets.js) -/

/-- `determineStatus` of the places service (and of the serverless sync
function): no incident consultation, and a three-valued result whose
no-data fallback is `'unknown'`. -/
def placesDetermineStatus (place : Place) : Str :=
  if place.business_status == some (str "CLOSED_PERMANENTLY") ||
      place.business_status == some (str "CLOSED_TEMPORARILY") then str "closed"
  else
    match openNowFlag place with
    | some b => if b then str "open" else str "closed"
    | none => str "unknown"

/-- The record produced by the serverless sync function's
`convertToSupermarketData` (api/sync-supermarkets.js). -/
structure ApiRecord where
  id : Option Str
  name : Str
  chain : Str
  address : Str
  city : Str
  postal_code : Str
  latitude : Int
  longitude : Int
  status : Str
  last_updated : Int
  deriving DecidableEq, Repr

/-- The anchored postal match `/^(\d{4}\s?[A-Z]{2})/` of the serverless
converter: digits and letters at the start of the string, greedy
optional whitespace, no trailing word boundary. -/
def anchoredPostal (cs : Str) : Option Str :=
  match cs with
  | d1 :: d2 :: d3 :: d4 :: rest =>
    if isDigit09 d1 && isDigit09 d2 && isDigit09 d3 && isDigit09 d4 then
      match rest with
      | w :: l1 :: l2 :: _ =>
        if w.isWhitespace && isUpperAZ l1 && isUpperAZ l2 then
          some [d1, d2, d3, d4, w, l1, l2]
        else
          match rest with
          | m1 :: m2 :: _ =>
            if isUpperAZ m1 && isUpperAZ m2 then some [d1, d2, d3, d4, m1, m2]
            else none
          | _ => none
      | m1 :: m2 :: _ =>
        if isUpperAZ m1 && isUpperAZ m2 then some [d1, d2, d3, d4, m1, m2]
        else none
      | _ => none
    else none
  | _ => none

/-- Extended chain list used by the serverless converter. -/
def API_SUPERMARKET_CHAINS : List Str :=
  [str "Albert Heijn", str "Jumbo", str "Plus Supermarkt", str "Lidl", str "Aldi",
   str "Coop", str "Dirk van den Broek", str "Dirk", str "Nettorama", str "Picnic",
   str "SPAR", str "Vomar", str "DekaMarkt", str "Boni", str "MCD Supermarkten"]

/-- `convertToSupermarketData` of api/sync-supermarkets.js: the second-last
comma part carries postal code and city, everything before it the street
address. -/
def apiConvertToSupermarketData (place : Place) (now : Int) : ApiRecord :=
  let addressParts := splitCommaSpace place.formatted_address
  -- `addressParts[addressParts.length - 2] || ''`: undefined (hence `''`)
  -- when fewer than two parts exist.
  let postalAndCity :=
    if decide (addressParts.length ≥ 2) then
      (addressParts.drop (addressParts.length - 2)).headD []
    else []
  let postalMatch := anchoredPostal postalAndCity
  let postalCode := postalMatch.getD []
  let city := jsTrim (removeFirstOccurrence (postalMatch.getD []) postalAndCity)
  let address := joinCommaSpace (addressParts.take (addressParts.length - 2))
  let chain := (API_SUPERMARKET_CHAINS.find? fun chainName =>
    containsSub (lowerStr chainName) (lowerStr place.name)).getD (str "Onbekend")
  { id := place.place_id
    name := place.name
    chain := chain
    address := address
    city := city
    postal_code := postalCode
    latitude := place.lat
    longitude := place.lng
    status := placesDetermineStatus place
    last_updated := now }

/-! ## Read path: fetchSupermarkets (src/services/databaseService.ts) -/

/-- The incident summary attached to a supermarket view when active
incidents exist. -/
structure ViewIncident where
  incidentType : Str
  description : Str
  reportedAt : Int
  reportedBy : Str
  deriving DecidableEq, Repr

/-- A supermarket as returned to the front end by `fetchSupermarkets`. -/
structure SupermarketView where
  id : Nat
  name : Str
  chain : Str
  address : Str
  city : Str
  postalCode : Str
  latitude : Int
  longitude : Int
  googlePlaceId : Option Str
  status : Str
  openingHours : Option (List Str)
  lastUpdated : Int
  incident : Option ViewIncident
  deriving DecidableEq, Repr

/-- `convertFromDatabase`: row-to-view field mapping. -/
def convertFromDatabase (row : MarketRow) : SupermarketView :=
  { id := row.id
    name := row.name
    chain := row.chain
    address := row.address
    city := row.city
    postalCode := row.postal_code
    latitude := row.latitude
    longitude := row.longitude
    googlePlaceId := row.google_place_id
    status := row.status
    openingHours := row.opening_hours
    lastUpdated := row.last_updated
    incident := none }

/-- Stable insertion into a chain-sorted list (models `ORDER BY chain`). -/
def insertByChain (r : MarketRow) : List MarketRow → List MarketRow
  | [] => [r]
  | x :: xs => if strLe x.chain r.chain then x :: insertByChain r xs else r :: x :: xs

/-- `order('chain', ascending)`: sort the rows by chain name. -/
def orderByChain : List MarketRow → List MarketRow
  | [] => []
  | r :: rest => insertByChain r (orderByChain rest)

/-- The `activeIncidents.sort(...)[0]` selection: the left-most incident
with maximal `created_at` (the JS sort is stable and descending). -/
def latestIncident : List Incident → Option Incident
  | [] => none
  | i :: rest =>
    match latestIncident rest with
    | none => some i
    | some j => if decide (j.created_at > i.created_at) then some j else some i

/-- An incident has status open or investigating. -/
def isActiveIncident (i : Incident) : Bool :=
  i.status == str "open" || i.status == str "investigating"

/-- The view of one joined row: the base status is overridden to
`'closed'` whenever any active incident exists, with the latest active
incident's details attached (an empty or missing description falls back
to the Dutch default text). -/
def viewOfRow (incidents : List Incident) (row : MarketRow) : SupermarketView :=
  let rowIncidents := incidents.filter fun i => i.supermarket_id == row.id
  let activeIncidents := rowIncidents.filter isActiveIncident
  let base := convertFromDatabase row
  match latestIncident activeIncidents with
  | none => base
  | some li =>
    { base with
      status := str "closed"
      incident := some
        { incidentType := li.incident_type
          description :=
            match li.description with
            | some d => if d.isEmpty then str "Er is een probleem gemeld" else d
            | none => str "Er is een probleem gemeld"
          reportedAt := li.created_at
          reportedBy := str "Gebruiker" } }

/-- `fetchSupermarkets`: join each supermarket row (ordered by chain) with
its incidents and apply the incident-based status override. -/
def fetchSupermarkets (db : Db) : List SupermarketView :=
  (orderByChain db.supermarkets).map (viewOfRow db.incidents)

/-! ## Upsert phase: upsertSupermarkets (scripts/sync-supermarkets.js) -/

/-- The lookup key under which `upsertSupermarkets` files a record in the
`existingRecords` map: only truthy Google Place ids are queried. -/
def gkey (m : SupermarketData) : Option Str :=
  match m.google_place_id with
  | some g => if g.isEmpty then none else some g
  | none => none

/-- The per-record existence query
`.eq('google_place_id', gid).limit(1)`: first matching row, when the
record has a truthy id. -/
def lookupRow (rows : List MarketRow) (m : SupermarketData) : Option MarketRow :=
  match gkey m with
  | some g => rows.find? fun r => r.google_place_id == some g
  | none => none

/-- A freshly inserted row: data fields from the record, `created_at` set
explicitly by the script, `last_updated` from the column default. -/
def rowFromData (id : Nat) (m : SupermarketData) (now : Int) : MarketRow :=
  { id := id
    name := m.name
    chain := m.chain
    address := m.address
    city := m.city
    postal_code := m.postal_code
    latitude := m.latitude
    longitude := m.longitude
    status := m.status
    google_place_id := m.google_place_id
    opening_hours := m.opening_hours
    created_at := now
    last_updated := now }

/-- Non-null Google Place ids present in a list of rows. -/
def storeGids (rows : List MarketRow) : List Str :=
  rows.filterMap fun r => r.google_place_id

/-- Whether the batched insert would violate the partial unique index on
non-null `google_place_id` (a duplicate within the statement or against
an existing row); the whole insert statement then fails and is logged. -/
def insertConflict (st : Store) (news : List SupermarketData) : Bool :=
  let newGids := news.filterMap fun m => m.google_place_id
  !decide newGids.Nodup || newGids.any fun g => g ∈ storeGids st.rows

/-- Insert the new records one after another with consecutively generated
ids. -/
def insertRowsGo (nid : Nat) (now : Int) : List SupermarketData → List MarketRow
  | [] => []
  | m :: rest => rowFromData nid m now :: insertRowsGo (nid + 1) now rest

/-- Append the new records with consecutively generated ids. -/
def insertRows (st : Store) (news : List SupermarketData) (now : Int) : Store :=
  { rows := st.rows ++ insertRowsGo st.nextId now news
    nextId := st.nextId + news.length }

/-- The row written by one UPDATE statement: mutable data fields from the
record, `id` and `created_at` untouched, `last_updated` refreshed by the
trigger. -/
def overwriteRow (r : MarketRow) (m : SupermarketData) (now : Int) : MarketRow :=
  { id := r.id
    name := m.name
    chain := m.chain
    address := m.address
    city := m.city
    postal_code := m.postal_code
    latitude := m.latitude
    longitude := m.longitude
    status := m.status
    google_place_id := m.google_place_id
    opening_hours := m.opening_hours
    created_at := r.created_at
    last_updated := now }

/-- One `update(...).eq('id', id)` statement: overwrite the mutable fields
of every row with the given id (ids are unique in a well-formed
store). -/
def applyUpdate (rows : List MarketRow) (id : Nat) (m : SupermarketData) (now : Int) :
    List MarketRow :=
  rows.map fun r => if r.id = id then overwriteRow r m now else r

/-- The sequential update loop over the batch's `updateRecords`. -/
def applyUpdates (rows : List MarketRow) (us : List (Nat × SupermarketData)) (now : Int) :
    List MarketRow :=
  us.foldl (fun rs u => applyUpdate rs u.1 u.2 now) rows

/-- The batch's `updateRecords` list: one `(id, record)` pair per record
found in the batch-start store. -/
def mkUpdates (rows : List MarketRow) (batch : List SupermarketData) :
    List (Nat × SupermarketData) :=
  batch.filterMap fun m => (lookupRow rows m).map fun ex => (ex.id, m)

/-- One batch of `upsertSupermarkets`: look up every record against the
batch-start store, split into new records and updates, run the batched
insert (skipped entirely on a unique-index conflict), then the updates. -/
def processBatch (st : Store) (batch : List SupermarketData) (now : Int) : Store :=
  let newRecords := batch.filter fun m => (lookupRow st.rows m).isNone
  let st1 :=
    if newRecords.isEmpty then st
    else if insertConflict st newRecords then st
    else insertRows st newRecords now
  { st1 with rows := applyUpdates st1.rows (mkUpdates st.rows batch) now }

/-- Fuel-driven chunking (the fuel is an upper bound on the list length,
letting the definition reduce in the kernel). -/
def chunksGo {α : Type} (size : Nat) : Nat → List α → List (List α)
  | _, [] => []
  | 0, _ => []
  | fuel + 1, l => l.take size :: chunksGo size fuel (l.drop size)

/-- Split a list into the batches of 50 processed by
`upsertSupermarkets`. -/
def toBatches {α : Type} (l : List α) : List (List α) := chunksGo 50 l.length l

/-- `upsertSupermarkets`: process the records in batches of 50 against the
store (counter and console side effects are not modelled). -/
def upsertSupermarkets (st : Store) (supermarkets : List SupermarketData) (now : Int) :
    Store :=
  (toBatches supermarkets).foldl (fun s b => processBatch s b now) st

/-! ## Admin entry points (supabase/migrations/20240104000000_initial_schema.sql) -/

/-- The caller's verified identity as seen inside the SQL functions:
`auth.role()` and the `role` claim of the JWT's `user_metadata`. -/
structure AuthContext where
  role : Str
  userMetaRole : Option Str
  deriving DecidableEq, Repr

/-- SQL three-valued AND: FALSE absorbs, otherwise a NULL operand makes
the result NULL. -/
def sqlAnd : Option Bool → Option Bool → Option Bool
  | some false, _ => some false
  | _, some false => some false
  | some true, some true => some true
  | _, _ => none

/-- SQL NOT: NULL stays NULL. -/
def sqlNot (b : Option Bool) : Option Bool := b.map fun x => !x

/-- SQL text comparison `a = 'literal'`: NULL when `a` is NULL. -/
def sqlEqText (a : Option Str) (b : Str) : Option Bool := a.map fun x => x == b

/-- The gate condition of both admin functions,
`auth.role() = 'authenticated' AND (jwt ->> 'user_metadata')::jsonb ->>
'role' = 'supermarket_admin'`, under SQL three-valued logic:
`auth.role()` is never NULL, but an absent role claim makes the second
conjunct — and hence the whole condition — NULL. -/
def adminGateCondition (a : AuthContext) : Option Bool :=
  sqlAnd (some (a.role == str "authenticated"))
    (sqlEqText a.userMetaRole (str "supermarket_admin"))

/-- Whether `IF NOT (condition) THEN RAISE ...` fires: PL/pgSQL executes
the THEN branch only when the IF condition is TRUE, so a NULL condition
(absent role claim with an authenticated caller) does not raise. -/
def adminGateRaises (a : AuthContext) : Bool :=
  sqlNot (adminGateCondition a) == some true

/-- The row returned by `get_admin_dashboard_stats`. -/
structure DashboardStats where
  total_supermarkets : Nat
  total_incidents : Nat
  active_incidents : Nat
  resolved_incidents : Nat
  deriving DecidableEq, Repr

/-- The access-denied message raised by both admin functions. -/
def accessDeniedMsg : Str := str "Access denied. Admin role required."

/-- `get_admin_dashboard_stats`: admin gate, then the four counters. -/
def getAdminDashboardStats (a : AuthContext) (db : Db) : Except Str DashboardStats :=
  if adminGateRaises a then Except.error accessDeniedMsg
  else Except.ok
    { total_supermarkets := db.supermarkets.length
      total_incidents := db.incidents.length
      active_incidents := (db.incidents.filter isActiveIncident).length
      resolved_incidents := (db.incidents.filter fun i =>
        i.status == str "resolved" || i.status == str "closed").length }

/-- The WHERE clause of `bulk_resolve_incidents`: referenced by id and not
already resolved. -/
def bulkResolveHits (incidentIds : List Nat) (i : Incident) : Bool :=
  incidentIds.contains i.id && !(i.status == str "resolved")

/-- The error raised by the `update_incidents_updated_at` BEFORE UPDATE
trigger: the migration attaches `update_updated_at_column` — which
assigns `NEW.last_updated` — to `supermarket_incidents`, a table whose
timestamp column is `updated_at`, so the trigger function fails on the
first row any UPDATE touches. -/
def incidentsTriggerError : Str := str "record \"new\" has no field \"last_updated\""

/-- `bulk_resolve_incidents`: admin gate, then one UPDATE over the rows
matching `id = ANY(incident_ids) AND status != 'resolved'`. When the
UPDATE matches no row the trigger never fires and `ROW_COUNT` 0 is
returned; when it matches at least one row the BEFORE UPDATE trigger
raises `incidentsTriggerError`, the statement is rolled back, and no
incident is modified. The `admin_note`/`NOW()` assignments of the
UPDATE's SET list are therefore unreachable. -/
def bulkResolveIncidents (a : AuthContext) (incidents : List Incident)
    (incidentIds : List Nat) (adminNote : Option Str) (now : Int) :
    Except Str Nat × List Incident :=
  if adminGateRaises a then (Except.error accessDeniedMsg, incidents)
  else if (incidents.filter (bulkResolveHits incidentIds)).isEmpty then
    (Except.ok 0, incidents)
  else
    (Except.error incidentsTriggerError, incidents)

/-! ## The per-chain fetch loop of syncSupermarkets
(scripts/sync-supermarkets.js) -/

/-- Filter a chain query's raw results to the bounding box and normalize
them, as the loop body does for one successful search. -/
def processChainResults (env : SyncEnv) (results : List Place) : List SupermarketData :=
  (results.filter fun p => isInNetherlands p.lat p.lng).map
    (convertToSupermarketData env)

/-- The fetch loop of `syncSupermarkets`: for each chain, query
`'<chain> supermarket Netherlands'` through the search oracle; a failed
search is caught, logged and skipped, a successful one contributes its
filtered, normalized results to `allResults`. -/
def syncFetchAll (env : SyncEnv) (oracle : Str → Except Str (List Place))
    (chains : List Str) : List SupermarketData :=
  chains.foldl
    (fun allResults chain =>
      match oracle (chain ++ str " supermarket Netherlands") with
      | Except.error _ => allResults
      | Except.ok results => allResults ++ processChainResults env results)
    []

/-! ## Specification-side definitions (stated from the spec's words, for
refinement comparisons) -/

/-- Modelled from the spec: "retain first occurrence, discard later
duplicates" — keep each record and drop every later record with the
same dedupe key. -/
def specFirstOccurrences : List SupermarketData → List SupermarketData
  | [] => []
  | r :: rest =>
    r :: specFirstOccurrences (rest.filter fun x => !(dedupKey x == dedupKey r))
termination_by l => l.length
decreasing_by
  simp only [List.length_cons]
  have h := (List.filter_sublist (l := rest)
    (p := fun x => !(dedupKey x == dedupKey r))).length_le
  omega

/-- Modelled from the spec: "the final result set equals the union of the
results of the successful searches" — concatenate, chain by chain, the
processed results of exactly the successful searches. -/
def specUnionOfSuccessfulSearches (env : SyncEnv)
    (oracle : Str → Except Str (List Place)) (chains : List Str) :
    List SupermarketData :=
  (chains.map fun chain =>
    match oracle (chain ++ str " supermarket Netherlands") with
    | Except.error _ => []
    | Except.ok results => processChainResults env results).flatten

/-! ## Helper lemmas about the status resolver -/

/-- A lookup that reports a recent incident necessarily received a truthy
place id (the function's first guard). -/
theorem hasRecentIncidents_truthy (env : SyncEnv) (gid : Option Str)
    (h : hasRecentIncidents env gid = true) : gidTruthy gid = true := by
  match gid with
  | none => simp [hasRecentIncidents] at h
  | some g =>
    by_cases hg : g.isEmpty
    · simp [hasRecentIncidents, hg] at h
    · simp [gidTruthy, hg]

/-- Evaluation of the resolver when a closure flag is set: neither the
store nor the opening hours are consulted. -/
theorem determineStatus_of_closed (env : SyncEnv) (place : Place) (gid : Option Str)
    (h : place.business_status = some (str "CLOSED_PERMANENTLY") ∨
      place.business_status = some (str "CLOSED_TEMPORARILY")) :
    determineStatus env place gid = str "closed" := by
  rcases h with h | h <;> simp [determineStatus, h]

/-- Evaluation of the resolver when no closure flag is set but the
incident lookup fires. -/
theorem determineStatus_of_incident (env : SyncEnv) (place : Place) (gid : Option Str)
    (h1 : place.business_status ≠ some (str "CLOSED_PERMANENTLY"))
    (h2 : place.business_status ≠ some (str "CLOSED_TEMPORARILY"))
    (h3 : hasRecentIncidents env gid = true) :
    determineStatus env place gid = str "closed" := by
  have ht := hasRecentIncidents_truthy env gid h3
  simp [determineStatus, h1, h2, h3, ht]

/-- Evaluation of the resolver from the open-now flag when the first two
rules do not fire. -/
theorem determineStatus_of_flag (env : SyncEnv) (place : Place) (gid : Option Str)
    (h1 : place.business_status ≠ some (str "CLOSED_PERMANENTLY"))
    (h2 : place.business_status ≠ some (str "CLOSED_TEMPORARILY"))
    (h3 : hasRecentIncidents env gid = false) :
    determineStatus env place gid =
      (match openNowFlag place with
       | some b => if b then str "open" else str "closed"
       | none => str "closed") := by
  simp [determineStatus, h1, h2, h3]

/-! ## Sanity examples (development aids) -/

example : splitCommaSpace (str "Dorpsstraat 12, 1234 AB Voorbeeldstad, Netherlands") =
    [str "Dorpsstraat 12", str "1234 AB Voorbeeldstad", str "Netherlands"] := by decide

example : findPostal (str "1234 AB Voorbeeldstad") = some (str "1234 AB") := by decide

example : findPostal (str "Netherlands") = none := by decide

example : findPostal (str "12345 AB") = none := by decide

example : getChainName (str "Albert Heijn Amsterdam") = str "Albert Heijn" := by decide

example : getChainName (str "SuperMart") = str "Onbekend" := by decide

example : jsTrim (str "  Voorbeeldstad ") = str "Voorbeeldstad" := by decide

example : removeFirstOccurrence (str "1234 AB") (str "1234 AB Voorbeeldstad") =
    str " Voorbeeldstad" := by decide

def examplePlace : Place :=
  { place_id := some (str "gp1")
    name := str "Albert Heijn"
    formatted_address := str "Dorpsstraat 12, 1234 AB Voorbeeldstad, Netherlands"
    lat := 521
    lng := 49
    business_status := some (str "OPERATIONAL")
    opening_hours := none }

def emptyEnv : SyncEnv :=
  { db := { supermarkets := [], incidents := [] }
    smLookupFails := false
    incQueryFails := false
    now := 0 }

example : (convertToSupermarketData emptyEnv examplePlace).address = str "Dorpsstraat 12" := by decide
example : (convertToSupermarketData emptyEnv examplePlace).postal_code = str "1234 AB" := by decide
example : (convertToSupermarketData emptyEnv examplePlace).city = str "Voorbeeldstad" := by decide
example : (apiConvertToSupermarketData examplePlace 0).address = str "Dorpsstraat 12" := by decide
example : (apiConvertToSupermarketData examplePlace 0).postal_code = str "1234 AB" := by decide
example : (apiConvertToSupermarketData examplePlace 0).city = str "Voorbeeldstad" := by decide
example : placesDetermineStatus examplePlace = str "unknown" := by decide
example : determineStatus emptyEnv examplePlace (some (str "gp1")) = str "closed" := by decide

/-! ## Concrete fixtures used by witnesses and counterexamples -/

/-- A stored supermarket row with Google Place id `g1` and base status
open. -/
def smRow1 : MarketRow :=
  { id := 1
    name := str "Albert Heijn Voorbeeldstad"
    chain := str "Albert Heijn"
    address := str "Dorpsstraat 12"
    city := str "Voorbeeldstad"
    postal_code := str "1234 AB"
    latitude := 521
    longitude := 49
    status := str "open"
    google_place_id := some (str "g1")
    opening_hours := none
    created_at := 0
    last_updated := 0 }

/-- An open incident for `smRow1` created 10000000 ms before the fixture
time 100000000 (well within 24 hours). -/
def incRecentOpen : Incident :=
  { id := 10
    supermarket_id := 1
    incident_type := str "machine_broken"
    description := some (str "kapot")
    reporter_email := none
    reporter_name := none
    priority := str "medium"
    status := str "open"
    admin_notes := none
    created_at := 90000000
    updated_at := 90000000 }

/-- An open incident for `smRow1` created at time 0, far older than
24 hours before the fixture time 100000000. -/
def incStaleOpen : Incident :=
  { incRecentOpen with id := 11, created_at := 0, updated_at := 0 }

/-- Environment at time 100000000 whose store holds `smRow1` and the
recent open incident, with both queries succeeding. -/
def envRecent : SyncEnv :=
  { db := { supermarkets := [smRow1], incidents := [incRecentOpen] }
    smLookupFails := false
    incQueryFails := false
    now := 100000000 }

/-- The same environment but with the supermarket lookup failing. -/
def envLookupFail : SyncEnv := { envRecent with smLookupFails := true }

/-- A place that is operational and currently open. -/
def placeOpenNow : Place :=
  { place_id := some (str "g1")
    name := str "Albert Heijn Voorbeeldstad"
    formatted_address := str "Dorpsstraat 12, 1234 AB Voorbeeldstad, Netherlands"
    lat := 521
    lng := 49
    business_status := some (str "OPERATIONAL")
    opening_hours := some { open_now := some true, periods := none } }

/-- A place that is operational but carries no opening-hours data. -/
def placeNoHours : Place := { placeOpenNow with opening_hours := none }

/-- A permanently closed place that claims to be currently open. -/
def placeClosedPerm : Place :=
  { placeOpenNow with business_status := some (str "CLOSED_PERMANENTLY") }

/-! ## C1: priority order of the Status Resolver -/

/-- C1: `determineStatus` consults its rules in strict priority order: a
CLOSED_PERMANENTLY/CLOSED_TEMPORARILY business status yields closed
without consulting the store or the opening hours; otherwise a firing
recent-incident lookup yields closed without consulting the opening
hours; otherwise a present open-now flag is passed through; otherwise
the result is closed. -/
theorem determineStatus_priority_order (env : SyncEnv) (place : Place)
    (gid : Option Str) :
    ((place.business_status = some (str "CLOSED_PERMANENTLY") ∨
      place.business_status = some (str "CLOSED_TEMPORARILY")) →
      ∀ (env2 : SyncEnv) (oh2 : Option RawOpeningHours),
        determineStatus env2 { place with opening_hours := oh2 } gid = str "closed") ∧
    (place.business_status ≠ some (str "CLOSED_PERMANENTLY") →
      place.business_status ≠ some (str "CLOSED_TEMPORARILY") →
      hasRecentIncidents env gid = true →
      ∀ (oh2 : Option RawOpeningHours),
        determineStatus env { place with opening_hours := oh2 } gid = str "closed") ∧
    (place.business_status ≠ some (str "CLOSED_PERMANENTLY") →
      place.business_status ≠ some (str "CLOSED_TEMPORARILY") →
      hasRecentIncidents env gid = false →
      ∀ b : Bool, openNowFlag place = some b →
        determineStatus env place gid = (if b then str "open" else str "closed")) ∧
    (place.business_status ≠ some (str "CLOSED_PERMANENTLY") →
      place.business_status ≠ some (str "CLOSED_TEMPORARILY") →
      hasRecentIncidents env gid = false →
      openNowFlag place = none →
      determineStatus env place gid = str "closed") := by
  refine ⟨?_, ?_, ?_, ?_⟩
  · intro h env2 oh2
    exact determineStatus_of_closed env2 _ gid h
  · intro h1 h2 h3 oh2
    exact determineStatus_of_incident env _ gid h1 h2 h3
  · intro h1 h2 h3 b hb
    rw [determineStatus_of_flag env place gid h1 h2 h3, hb]
  · intro h1 h2 h3 h4
    rw [determineStatus_of_flag env place gid h1 h2 h3, h4]

/-- Witness for C1: each of the four rules fires as stated on concrete
inputs — a permanently closed store with a glowing open-now flag and an
active incident resolves closed; an operational store with a recent
incident resolves closed despite open-now true; with no incident the
open-now flag passes through; with no data at all the result is
closed. -/
theorem determineStatus_priority_order_witness :
    determineStatus envRecent placeClosedPerm (some (str "g1")) = str "closed" ∧
    determineStatus envRecent placeOpenNow (some (str "g1")) = str "closed" ∧
    determineStatus envLookupFail placeOpenNow (some (str "g1")) = str "open" ∧
    determineStatus envLookupFail placeNoHours (some (str "g1")) = str "closed" := by
  refine ⟨?_, ?_, ?_, ?_⟩
  · have h := (determineStatus_priority_order envRecent
      { placeClosedPerm with opening_hours := placeClosedPerm.opening_hours }
      (some (str "g1"))).1 (by decide) envRecent placeClosedPerm.opening_hours
    exact h
  · have h := (determineStatus_priority_order envRecent
      { placeOpenNow with opening_hours := placeOpenNow.opening_hours }
      (some (str "g1"))).2.1 (by decide) (by decide) (by decide)
      placeOpenNow.opening_hours
    exact h
  · have h := (determineStatus_priority_order envLookupFail placeOpenNow
      (some (str "g1"))).2.2.1 (by decide) (by decide) (by decide) true (by decide)
    simpa using h
  · have h := (determineStatus_priority_order envLookupFail placeNoHours
      (some (str "g1"))).2.2.2 (by decide) (by decide) (by decide) (by decide)
    exact h

/-! ## C10: failures of the incident lookup are swallowed -/

/-- C10: a failing supermarket lookup, and equally an external id matching
no stored row, make `hasRecentIncidents` report false; concretely, for a
location that does have an active incident within 24 hours, a failed
lookup together with open-now true makes the resolver return open —
while the same data with a healthy lookup resolves closed. -/
theorem hasRecentIncidents_failure_swallowed :
    (∀ (env : SyncEnv) (gid : Option Str), env.smLookupFails = true →
      hasRecentIncidents env gid = false) ∧
    (∀ (env : SyncEnv) (g : Str),
      env.db.supermarkets.filter (fun r => r.google_place_id == some g) = [] →
      hasRecentIncidents env (some g) = false) ∧
    (hasRecentIncidents envRecent (some (str "g1")) = true ∧
      determineStatus envLookupFail placeOpenNow (some (str "g1")) = str "open" ∧
      determineStatus envRecent placeOpenNow (some (str "g1")) = str "closed") := by
  refine ⟨?_, ?_, by decide, by decide, by decide⟩
  · intro env gid h
    match gid with
    | none => simp [hasRecentIncidents]
    | some g =>
      by_cases hg : g.isEmpty <;> simp [hasRecentIncidents, hg, h]
  · intro env g hfilter
    by_cases hg : g.isEmpty
    · simp [hasRecentIncidents, hg]
    · by_cases hf : env.smLookupFails <;> simp [hasRecentIncidents, hg, hf, hfilter]

/-- Witness for C10: the universally quantified parts applied at the
concrete failing environment and at an environment whose store has no
row for the id. -/
theorem hasRecentIncidents_failure_swallowed_witness :
    hasRecentIncidents envLookupFail (some (str "g1")) = false ∧
    hasRecentIncidents emptyEnv (some (str "g1")) = false := by
  constructor
  · exact hasRecentIncidents_failure_swallowed.1 envLookupFail (some (str "g1"))
      (by decide)
  · exact hasRecentIncidents_failure_swallowed.2.1 emptyEnv (str "g1") (by decide)

/-! ## C9: the address-parsing example -/

/-- C9: normalizing the example address
"Dorpsstraat 12, 1234 AB Voorbeeldstad, Netherlands" yields street
"Dorpsstraat 12", postal code "1234 AB" and city "Voorbeeldstad" — in
the reconciler's converter and in the serverless converter alike. -/
theorem convert_example_address :
    (convertToSupermarketData emptyEnv examplePlace).address = str "Dorpsstraat 12" ∧
    (convertToSupermarketData emptyEnv examplePlace).postal_code = str "1234 AB" ∧
    (convertToSupermarketData emptyEnv examplePlace).city = str "Voorbeeldstad" ∧
    (apiConvertToSupermarketData examplePlace 0).address = str "Dorpsstraat 12" ∧
    (apiConvertToSupermarketData examplePlace 0).postal_code = str "1234 AB" ∧
    (apiConvertToSupermarketData examplePlace 0).city = str "Voorbeeldstad" := by
  decide

/-! ## C4: the pessimistic no-data default -/

/-- Counterexample for C4: the front-end places-service resolver (also
used by the serverless sync function), at an operational place with no
recent incident and no opening-hours data at all, returns "unknown"
rather than "closed". -/
theorem placesDetermineStatus_no_data_not_closed :
    placeNoHours.business_status = some (str "OPERATIONAL") ∧
    openNowFlag placeNoHours = none ∧
    placesDetermineStatus placeNoHours = str "unknown" ∧
    placesDetermineStatus placeNoHours ≠ str "closed" := by
  decide

/-- C4 (amended): the reconciler's resolver returns "closed" when no
closure flag is set, the incident lookup reports nothing and no open-now
flag is present, and it returns "open" only when an open-now flag is
present and true; the front-end variant instead returns "unknown" on
missing data, and likewise returns "open" only for an explicit open-now
true. -/
theorem determineStatus_pessimistic_default (env : SyncEnv) (place : Place)
    (gid : Option Str) :
    (place.business_status ≠ some (str "CLOSED_PERMANENTLY") →
      place.business_status ≠ some (str "CLOSED_TEMPORARILY") →
      hasRecentIncidents env gid = false →
      openNowFlag place = none →
      determineStatus env place gid = str "closed") ∧
    (determineStatus env place gid = str "open" → openNowFlag place = some true) ∧
    (place.business_status ≠ some (str "CLOSED_PERMANENTLY") →
      place.business_status ≠ some (str "CLOSED_TEMPORARILY") →
      openNowFlag place = none →
      placesDetermineStatus place = str "unknown") ∧
    (placesDetermineStatus place = str "open" → openNowFlag place = some true) := by
  refine ⟨?_, ?_, ?_, ?_⟩
  · intro h1 h2 h3 h4
    rw [determineStatus_of_flag env place gid h1 h2 h3, h4]
  · intro h
    by_cases h1 : place.business_status = some (str "CLOSED_PERMANENTLY")
    · rw [determineStatus_of_closed env place gid (Or.inl h1)] at h
      exact absurd h (by decide)
    · by_cases h2 : place.business_status = some (str "CLOSED_TEMPORARILY")
      · rw [determineStatus_of_closed env place gid (Or.inr h2)] at h
        exact absurd h (by decide)
      · by_cases h3 : hasRecentIncidents env gid = true
        · rw [determineStatus_of_incident env place gid h1 h2 h3] at h
          exact absurd h (by decide)
        · rw [determineStatus_of_flag env place gid h1 h2
            (Bool.not_eq_true _ ▸ h3)] at h
          match hx : openNowFlag place with
          | none => rw [hx] at h; exact absurd h (by decide)
          | some true => rfl
          | some false => rw [hx] at h; exact absurd h (by decide)
  · intro h1 h2 h4
    simp [placesDetermineStatus, h1, h2, h4]
  · intro h
    by_cases h1 : place.business_status = some (str "CLOSED_PERMANENTLY")
    · simp [placesDetermineStatus, h1] at h
      exact absurd h (by decide)
    · by_cases h2 : place.business_status = some (str "CLOSED_TEMPORARILY")
      · simp [placesDetermineStatus, h1, h2] at h
        exact absurd h (by decide)
      · match hx : openNowFlag place with
        | none =>
          simp [placesDetermineStatus, h1, h2, hx] at h
          exact absurd h (by decide)
        | some true => rfl
        | some false =>
          simp [placesDetermineStatus, h1, h2, hx] at h
          exact absurd h (by decide)

/-- Witness for C4 (amended): with no closure flag, no incident on file
and no opening-hours data, the reconciler's resolver returns closed and
the places-service variant returns unknown. -/
theorem determineStatus_pessimistic_default_witness :
    determineStatus emptyEnv placeNoHours (some (str "g1")) = str "closed" ∧
    placesDetermineStatus placeNoHours = str "unknown" := by
  constructor
  · exact (determineStatus_pessimistic_default emptyEnv placeNoHours
      (some (str "g1"))).1 (by decide) (by decide) (by decide) (by decide)
  · exact (determineStatus_pessimistic_default emptyEnv placeNoHours
      (some (str "g1"))).2.2.1 (by decide) (by decide) (by decide)

/-! ## C6: the admin gate -/

/-- C6 (code bug): under SQL three-valued logic the admin gate fails open
for an authenticated caller whose `user_metadata` carries no role claim:
the gate condition is `TRUE AND NULL = NULL`, `IF NOT (NULL)` does not
raise, and `get_admin_dashboard_stats` returns full statistics while
`bulk_resolve_incidents` proceeds past the gate — the claim's required
access-denied rejection of the absent-claim case does not happen. A
mismatched claim and an unauthenticated caller are still rejected. -/
theorem admin_gate_fails_open :
    adminGateRaises { role := str "authenticated", userMetaRole := none } = false ∧
    getAdminDashboardStats { role := str "authenticated", userMetaRole := none }
      { supermarkets := [smRow1], incidents := [incRecentOpen] } =
      Except.ok
        { total_supermarkets := 1
          total_incidents := 1
          active_incidents := 1
          resolved_incidents := 0 } ∧
    (bulkResolveIncidents { role := str "authenticated", userMetaRole := none }
      [] [10] (some (str "fixed")) 0).1 = Except.ok 0 ∧
    getAdminDashboardStats { role := str "authenticated", userMetaRole := some (str "user") }
      { supermarkets := [smRow1], incidents := [incRecentOpen] } =
      Except.error accessDeniedMsg ∧
    getAdminDashboardStats { role := str "anon", userMetaRole := none }
      { supermarkets := [smRow1], incidents := [incRecentOpen] } =
      Except.error accessDeniedMsg := by
  exact ⟨rfl, rfl, rfl, rfl, rfl⟩

/-! ## C5: bulk resolve -/

/-- The fourth incident of the bulk-resolve scenario: already resolved
with an earlier note. -/
def incResolved24 : Incident :=
  { incRecentOpen with
    id := 24
    status := str "resolved"
    admin_notes := some (str "earlier") }

/-- Three open incidents and one already resolved, for the bulk-resolve
scenario. -/
def incScenario : List Incident :=
  [ { incRecentOpen with id := 21 },
    { incRecentOpen with id := 22 },
    { incRecentOpen with id := 23 },
    incResolved24 ]

/-- An authenticated caller carrying the admin role claim. -/
def adminCtx : AuthContext :=
  { role := str "authenticated", userMetaRole := some (str "supermarket_admin") }

/-- C5 (code bug): an authorized admin bulk-resolving the claim's
scenario — three open incidents and one already resolved, with note
"fixed" — hits the mis-attached BEFORE UPDATE trigger (it assigns
`NEW.last_updated`, which `supermarket_incidents` lacks): the call
raises `incidentsTriggerError` and resolves nothing, so the claimed
post-state (three resolved rows with the note, count 3) is unreachable.
A call whose UPDATE matches no row — only already-resolved ids — never
fires the trigger and returns count 0 with the table unchanged. -/
theorem bulk_resolve_trigger_raises :
    (bulkResolveIncidents adminCtx incScenario [21, 22, 23, 24] (some (str "fixed"))
      200000000).1 = Except.error incidentsTriggerError ∧
    (bulkResolveIncidents adminCtx incScenario [21, 22, 23, 24] (some (str "fixed"))
      200000000).2 = incScenario ∧
    (bulkResolveIncidents adminCtx [incResolved24] [24] (some (str "fixed"))
      200000000).1 = Except.ok 0 ∧
    (bulkResolveIncidents adminCtx [incResolved24] [24] (some (str "fixed"))
      200000000).2 = [incResolved24] := by
  exact ⟨rfl, rfl, rfl, rfl⟩

/-! ## C7: deduplication -/

/-- `dedupGo` computes the first-occurrence filter of the records whose
keys are not yet seen. -/
theorem dedupGo_eq_spec (rs : List SupermarketData) :
    ∀ seen : List Str, dedupGo seen rs =
      specFirstOccurrences (rs.filter fun x => !decide (dedupKey x ∈ seen)) := by
  induction rs with
  | nil => intro seen; simp [dedupGo, specFirstOccurrences]
  | cons r rest ih =>
    intro seen
    by_cases hin : dedupKey r ∈ seen
    · rw [show dedupGo seen (r :: rest) = dedupGo seen rest from by
        simp [dedupGo, hin], ih seen]
      congr 1
      simp [List.filter_cons, hin]
    · have hstep : dedupGo seen (r :: rest) = r :: dedupGo (dedupKey r :: seen) rest := by
        simp [dedupGo, hin]
      have hfilter : ((r :: rest).filter fun x => !decide (dedupKey x ∈ seen)) =
          r :: (rest.filter fun x => !decide (dedupKey x ∈ seen)) := by
        simp [List.filter_cons, hin]
      rw [hstep, ih (dedupKey r :: seen), hfilter]
      conv_rhs => rw [specFirstOccurrences]
      rw [List.filter_filter]
      have hpt : (rest.filter fun x => !decide (dedupKey x ∈ dedupKey r :: seen)) =
          rest.filter fun a => !(dedupKey a == dedupKey r) && !decide (dedupKey a ∈ seen) := by
        refine List.filter_congr ?_
        intro x _
        by_cases h1 : dedupKey x = dedupKey r <;>
          by_cases h2 : dedupKey x ∈ seen <;>
          simp [h1, h2, List.mem_cons]
      rw [hpt]

/-- `deduplicateResults` equals the specification's first-occurrence
filter. -/
theorem deduplicateResults_eq_specFO (rs : List SupermarketData) :
    deduplicateResults rs = specFirstOccurrences rs := by
  have h := dedupGo_eq_spec rs []
  simpa [deduplicateResults] using h

/-- The keys of a `dedupGo` output are distinct and disjoint from the seen
set. -/
theorem dedupGo_keys_nodup (rs : List SupermarketData) :
    ∀ seen : List Str, ((dedupGo seen rs).map dedupKey).Nodup ∧
      ∀ k ∈ (dedupGo seen rs).map dedupKey, k ∉ seen := by
  induction rs with
  | nil => intro seen; simp [dedupGo]
  | cons r rest ih =>
    intro seen
    by_cases hin : dedupKey r ∈ seen
    · simpa [dedupGo, hin] using ih seen
    · have ihr := ih (dedupKey r :: seen)
      refine ⟨?_, ?_⟩
      · simp only [dedupGo, if_neg hin, List.map_cons, List.nodup_cons]
        refine ⟨?_, ihr.1⟩
        intro hmem
        have := ihr.2 _ hmem
        simp at this
      · intro k hk
        simp only [dedupGo, if_neg hin, List.map_cons, List.mem_cons] at hk
        rcases hk with hk | hk
        · subst hk; exact hin
        · have := ihr.2 k hk
          intro hkseen
          exact this (List.mem_cons_of_mem _ hkseen)

/-- Every input record's key is either already seen or represented in the
`dedupGo` output. -/
theorem dedupGo_covers (rs : List SupermarketData) :
    ∀ (seen : List Str) (r : SupermarketData), r ∈ rs →
      dedupKey r ∈ seen ∨ ∃ r2 ∈ dedupGo seen rs, dedupKey r2 = dedupKey r := by
  induction rs with
  | nil => intro seen r hr; simp at hr
  | cons x rest ih =>
    intro seen r hr
    rcases List.mem_cons.mp hr with hr | hr
    · subst hr
      by_cases hin : dedupKey r ∈ seen
      · exact Or.inl hin
      · exact Or.inr ⟨r, by simp [dedupGo, hin], rfl⟩
    · by_cases hin : dedupKey x ∈ seen
      · rcases ih seen r hr with h | ⟨r2, hr2, hk⟩
        · exact Or.inl h
        · exact Or.inr ⟨r2, by simpa [dedupGo, hin] using hr2, hk⟩
      · rcases ih (dedupKey x :: seen) r hr with h | ⟨r2, hr2, hk⟩
        · rcases List.mem_cons.mp h with h | h
          · exact Or.inr ⟨x, by simp [dedupGo, hin], h.symm⟩
          · exact Or.inl h
        · exact Or.inr ⟨r2, by simp [dedupGo, hin, hr2], hk⟩

/-- In a list whose image under `f` is duplicate-free, each realized key
is hit by exactly one element. -/
theorem filter_key_length_one {α : Type} (f : α → Str)
    (l : List α) (hn : (l.map f).Nodup) (k : Str) (hex : ∃ x ∈ l, f x = k) :
    (l.filter fun x => f x == k).length = 1 := by
  induction l with
  | nil => simp at hex
  | cons a rest ih =>
    simp only [List.map_cons, List.nodup_cons] at hn
    by_cases ha : f a = k
    · have hrest : (rest.filter fun x => f x == k) = [] := by
        refine List.filter_eq_nil_iff.mpr ?_
        intro x hx
        simp only [beq_iff_eq]
        intro hxk
        exact hn.1 (ha ▸ hxk ▸ List.mem_map_of_mem f hx)
      simp [List.filter_cons, ha, hrest]
    · rcases hex with ⟨x, hx, hxk⟩
      rcases List.mem_cons.mp hx with hx | hx
      · exact absurd (hx ▸ hxk) ha
      · have := ih hn.2 ⟨x, hx, hxk⟩
        simpa [List.filter_cons, ha] using this

/-- Counterexample record pair for the claimed fallback key: no external
id, identical name, address and city, but distinct latitudes. -/
def recNoId1 : SupermarketData :=
  { name := str "Albert Heijn"
    chain := str "Albert Heijn"
    address := str "Dorpsstraat 12"
    city := str "Voorbeeldstad"
    postal_code := str "1234 AB"
    latitude := 520
    longitude := 50
    status := str "closed"
    google_place_id := none
    opening_hours := none }

/-- The same record except for the latitude. -/
def recNoId2 : SupermarketData := { recNoId1 with latitude := 530 }

/-- Counterexample for C7: the fallback key of `deduplicateResults` is the
name-latitude-longitude composite, not (name, address, city): two
id-less records agreeing on name, address and city but not on
coordinates are both retained. -/
theorem deduplicateResults_fallback_key_cx :
    recNoId1.google_place_id = none ∧
    recNoId2.google_place_id = none ∧
    recNoId1.name = recNoId2.name ∧
    recNoId1.address = recNoId2.address ∧
    recNoId1.city = recNoId2.city ∧
    deduplicateResults [recNoId1, recNoId2] = [recNoId1, recNoId2] := by
  decide

/-- C7 (amended): `deduplicateResults` retains exactly the first
occurrence per key — where the key is the truthy external id and
otherwise the name-latitude-longitude composite string — and in the
output each realized key, in particular a shared external id, is hit by
exactly one record. -/
theorem deduplicateResults_first_per_key (rs : List SupermarketData) :
    deduplicateResults rs = specFirstOccurrences rs ∧
    ((deduplicateResults rs).map dedupKey).Nodup ∧
    ∀ r ∈ rs,
      ((deduplicateResults rs).filter fun x => dedupKey x == dedupKey r).length = 1 := by
  refine ⟨deduplicateResults_eq_specFO rs, (dedupGo_keys_nodup rs []).1, ?_⟩
  intro r hr
  rcases dedupGo_covers rs [] r hr with h | ⟨r2, hr2, hk⟩
  · simp at h
  · exact filter_key_length_one dedupKey (deduplicateResults rs)
      (dedupGo_keys_nodup rs []).1 (dedupKey r) ⟨r2, hr2, hk⟩

/-- Two records sharing the external id `gshared` (with different names
and coordinates). -/
def recShared1 : SupermarketData := { recNoId1 with google_place_id := some (str "gshared") }

/-- The second record with the shared external id. -/
def recShared2 : SupermarketData :=
  { recNoId2 with google_place_id := some (str "gshared"), name := str "AH to go" }

/-- Witness for C7 (amended): two records sharing an external id yield
exactly one output record with that key. -/
theorem deduplicateResults_first_per_key_witness :
    ((deduplicateResults [recShared1, recShared2]).filter
      fun x => dedupKey x == dedupKey recShared1).length = 1 := by
  exact (deduplicateResults_first_per_key [recShared1, recShared2]).2.2 recShared1
    (by decide)

/-! ## C8: partial-failure semantics of the fetch loop -/

/-- The fold of the fetch loop, generalized over the accumulator:
processed results of successful searches are appended in order and
failed searches contribute nothing. -/
theorem syncFetchAll_foldl_general (env : SyncEnv)
    (oracle : Str → Except Str (List Place)) (chains : List Str) :
    ∀ acc : List SupermarketData,
      chains.foldl
        (fun allResults chain =>
          match oracle (chain ++ str " supermarket Netherlands") with
          | Except.error _ => allResults
          | Except.ok results => allResults ++ processChainResults env results)
        acc = acc ++ specUnionOfSuccessfulSearches env oracle chains := by
  induction chains with
  | nil => intro acc; simp [specUnionOfSuccessfulSearches]
  | cons c cs ih =>
    intro acc
    simp only [List.foldl_cons, specUnionOfSuccessfulSearches, List.map_cons,
      List.flatten_cons]
    match hq : oracle (c ++ str " supermarket Netherlands") with
    | Except.error e =>
      rw [ih acc]
      simp [specUnionOfSuccessfulSearches]
    | Except.ok results =>
      rw [ih (acc ++ processChainResults env results)]
      simp [specUnionOfSuccessfulSearches]

/-- C8: the fetch loop of `syncSupermarkets` never aborts on a failed
chain search — its final result is exactly the concatenated, filtered
and normalized results of the successful searches. -/
theorem syncFetchAll_partial_failure (env : SyncEnv)
    (oracle : Str → Except Str (List Place)) (chains : List Str) :
    syncFetchAll env oracle chains =
      specUnionOfSuccessfulSearches env oracle chains := by
  have h := syncFetchAll_foldl_general env oracle chains []
  simpa [syncFetchAll] using h

/-! ## C3: the incident override -/

/-- `latestIncident` of a nonempty list always selects an element. -/
theorem latestIncident_isSome (i : Incident) (rest : List Incident) :
    (latestIncident (i :: rest)).isSome = true := by
  cases hre : latestIncident rest <;> simp [latestIncident, hre]
  split <;> simp

/-- The view keeps the database row's id. -/
theorem viewOfRow_id (incs : List Incident) (row : MarketRow) :
    (viewOfRow incs row).id = row.id := by
  simp only [viewOfRow]
  split <;> rfl

/-- Any active incident of a row — regardless of its age — forces the
row's view status to closed. -/
theorem viewOfRow_closed_of_active (incs : List Incident) (row : MarketRow)
    (inc : Incident) (hmem : inc ∈ incs) (hsid : inc.supermarket_id = row.id)
    (hact : isActiveIncident inc = true) :
    (viewOfRow incs row).status = str "closed" := by
  have hmem2 : inc ∈ (incs.filter fun i => i.supermarket_id == row.id).filter
      isActiveIncident := by
    simp [List.mem_filter, hmem, hsid, hact]
  simp only [viewOfRow]
  split
  · next heq =>
    exfalso
    cases hactive : (incs.filter fun i => i.supermarket_id == row.id).filter
        isActiveIncident with
    | nil => rw [hactive] at hmem2; simp at hmem2
    | cons a rest =>
      rw [hactive] at heq
      have := latestIncident_isSome a rest
      rw [heq] at this
      simp at this
  · rfl

/-- Membership is preserved by the sorted insertion. -/
theorem mem_insertByChain (a r : MarketRow) (l : List MarketRow) :
    a ∈ insertByChain r l ↔ a = r ∨ a ∈ l := by
  induction l with
  | nil => simp [insertByChain]
  | cons x xs ih =>
    unfold insertByChain
    by_cases h : strLe x.chain r.chain = true
    · simp only [if_pos h, List.mem_cons, ih]
      try tauto
    · simp only [if_neg h, List.mem_cons]
      try tauto

/-- Membership is preserved by the chain ordering. -/
theorem mem_orderByChain (a : MarketRow) (l : List MarketRow) :
    a ∈ orderByChain l ↔ a ∈ l := by
  induction l with
  | nil => simp [orderByChain]
  | cons x xs ih => simp [orderByChain, mem_insertByChain, ih]

/-- The store whose single supermarket row has base status open and whose
single incident is open but created far more than 24 hours before the
fixture time 100000000. -/
def dbStale : Db := { supermarkets := [smRow1], incidents := [incStaleOpen] }

/-- The sync environment over `dbStale` at the fixture time. -/
def envStale : SyncEnv :=
  { db := dbStale, smLookupFails := false, incQueryFails := false, now := 100000000 }

/-- Counterexample for C3: an open incident older than 24 hours does not
fire the sync-time lookup, yet the read path of `fetchSupermarkets`
still overrides the stored open status to closed — the 24-hour
restriction does not hold for the read-path override. -/
theorem stale_incident_still_overrides_cx :
    dbStale.incidents.map (fun i => i.status) = [str "open"] ∧
    dbStale.incidents.map (fun i => i.created_at) = [0] ∧
    (0 : Int) < envStale.now - twentyFourHoursMs ∧
    hasRecentIncidents envStale (some (str "g1")) = false ∧
    dbStale.supermarkets.map (fun r => r.status) = [str "open"] ∧
    (fetchSupermarkets dbStale).map (fun v => v.status) = [str "closed"] := by
  decide

/-- C3 (amended): a recent active incident of a uniquely matched location
makes the sync-time resolver return closed for every place input (in
particular one that is operational with open-now true); locations all
of whose active incidents are stale never fire the sync-time lookup;
and the read-path override of `fetchSupermarkets` closes a location on
any open/investigating incident regardless of age. -/
theorem incident_override_rules (env : SyncEnv) (g : Str) (sm : MarketRow) :
    (env.smLookupFails = false → env.incQueryFails = false → g ≠ [] →
      env.db.supermarkets.filter (fun r => r.google_place_id == some g) = [sm] →
      ∀ inc ∈ env.db.incidents, inc.supermarket_id = sm.id →
      (inc.status = str "open" ∨ inc.status = str "investigating") →
      inc.created_at ≥ env.now - twentyFourHoursMs →
      ∀ place : Place, determineStatus env place (some g) = str "closed") ∧
    (env.db.supermarkets.filter (fun r => r.google_place_id == some g) = [sm] →
      (∀ inc ∈ env.db.incidents, inc.supermarket_id = sm.id →
        (inc.status = str "open" ∨ inc.status = str "investigating") →
        inc.created_at < env.now - twentyFourHoursMs) →
      hasRecentIncidents env (some g) = false) ∧
    (∀ (db : Db) (row : MarketRow) (inc : Incident), row ∈ db.supermarkets →
      inc ∈ db.incidents → inc.supermarket_id = row.id →
      isActiveIncident inc = true →
      ∀ v ∈ fetchSupermarkets db, v.id = row.id → v.status = str "closed") := by
  refine ⟨?_, ?_, ?_⟩
  · intro hsl hiq hg hfilter inc hmem hsid hstat hrecent place
    have hne : g.isEmpty = false := by
      cases g with
      | nil => exact absurd rfl hg
      | cons c cs => rfl
    have hri : hasRecentIncidents env (some g) = true := by
      simp only [hasRecentIncidents, hne, hsl, hiq, hfilter, Bool.false_eq_true,
        if_false]
      refine List.any_eq_true.mpr ⟨inc, hmem, ?_⟩
      rcases hstat with hs | hs <;>
        simp [hsid, hs, hrecent]
    by_cases h1 : place.business_status = some (str "CLOSED_PERMANENTLY")
    · exact determineStatus_of_closed env place (some g) (Or.inl h1)
    · by_cases h2 : place.business_status = some (str "CLOSED_TEMPORARILY")
      · exact determineStatus_of_closed env place (some g) (Or.inr h2)
      · exact determineStatus_of_incident env place (some g) h1 h2 hri
  · intro hfilter hstale
    cases hne : g.isEmpty with
    | true => simp [hasRecentIncidents, hne]
    | false =>
      by_cases hsl : env.smLookupFails = true
      · simp [hasRecentIncidents, hne, hsl]
      · by_cases hiq : env.incQueryFails = true
        · simp [hasRecentIncidents, hne, hsl, hiq, hfilter]
        · simp only [hasRecentIncidents, hne, hsl, hiq, hfilter,
            Bool.false_eq_true, if_false]
          refine List.any_eq_false.mpr ?_
          intro inc hmem
          by_cases hsid : inc.supermarket_id = sm.id
          · by_cases hs1 : inc.status = str "open"
            · have := hstale inc hmem hsid (Or.inl hs1)
              simp [hsid, hs1]
              omega
            · by_cases hs2 : inc.status = str "investigating"
              · have := hstale inc hmem hsid (Or.inr hs2)
                simp [hsid, hs2]
                omega
              · simp [hsid, hs1, hs2]
          · simp [hsid]
  · intro db row inc hrow hmem hsid hact v hv hid
    rcases List.mem_map.mp hv with ⟨row2, hrow2, hveq⟩
    have hid2 : row2.id = row.id := by
      rw [← hveq] at hid
      rw [← hid, viewOfRow_id]
    rw [← hveq]
    exact viewOfRow_closed_of_active db.incidents row2 inc hmem
      (hid2 ▸ hsid) hact

/-- Witness for C3 (amended): a recent open incident closes an operational
open-now-true place at sync time; the stale store never fires the
lookup; and the read path closes the stale store's location. -/
theorem incident_override_rules_witness :
    determineStatus envRecent placeOpenNow (some (str "g1")) = str "closed" ∧
    hasRecentIncidents envStale (some (str "g1")) = false ∧
    ((fetchSupermarkets dbStale).headD (convertFromDatabase smRow1)).status =
      str "closed" := by
  refine ⟨?_, ?_, ?_⟩
  · exact (incident_override_rules envRecent (str "g1") smRow1).1 (by decide)
      (by decide) (by decide) (by decide) incRecentOpen (by decide) (by decide)
      (Or.inl (by decide)) (by decide) placeOpenNow
  · exact (incident_override_rules envStale (str "g1") smRow1).2.1 (by decide)
      (by decide)
  · exact (incident_override_rules envStale (str "g1") smRow1).2.2 dbStale smRow1
      incStaleOpen (by decide) (by decide) (by decide) (by decide)
      ((fetchSupermarkets dbStale).headD (convertFromDatabase smRow1)) (by decide)
      (by decide)

/-! ## C2: idempotence of the upsert phase -/

/-- The mutable data carried by a stored row, as a normalized record. -/
def rowData (r : MarketRow) : SupermarketData :=
  { name := r.name
    chain := r.chain
    address := r.address
    city := r.city
    postal_code := r.postal_code
    latitude := r.latitude
    longitude := r.longitude
    status := r.status
    google_place_id := r.google_place_id
    opening_hours := r.opening_hours }

/-- A row up to its `last_updated` timestamp. -/
def dataOf (r : MarketRow) : MarketRow := { r with last_updated := 0 }

/-- Well-formedness of a store: primary keys are unique and below the id
generator. -/
def StoreWF (st : Store) : Prop :=
  (st.rows.map MarketRow.id).Nodup ∧ ∀ r ∈ st.rows, r.id < st.nextId

/-- The store reflects a record: the record's lookup succeeds and the row
found carries exactly the record's data. -/
def reflects (rows : List MarketRow) (m : SupermarketData) : Prop :=
  ∃ r, lookupRow rows m = some r ∧ rowData r = m

/-- The cumulative effect of the update loop on one row: each update whose
id matches overwrites the row in turn. -/
def updRow (us : List (Nat × SupermarketData)) (now : Int) (r : MarketRow) : MarketRow :=
  us.foldl (fun r2 u => if r2.id = u.1 then overwriteRow r2 u.2 now else r2) r

theorem overwriteRow_id (r : MarketRow) (m : SupermarketData) (now : Int) :
    (overwriteRow r m now).id = r.id := rfl

theorem rowData_overwriteRow (r : MarketRow) (m : SupermarketData) (now : Int) :
    rowData (overwriteRow r m now) = m := rfl

theorem rowData_rowFromData (id : Nat) (m : SupermarketData) (now : Int) :
    rowData (rowFromData id m now) = m := rfl

theorem overwriteRow_rowData_self (r : MarketRow) (now : Int) :
    overwriteRow r (rowData r) now = { r with last_updated := now } := rfl

/-- Overwriting with data the row already carries only touches
`last_updated`. -/
theorem dataOf_overwriteRow_self (r : MarketRow) (m : SupermarketData) (now : Int)
    (h : rowData r = m) : dataOf (overwriteRow r m now) = dataOf r := by
  subst h
  rfl

/-- `dataOf` keeps the gid column. -/
theorem dataOf_gid (r : MarketRow) : (dataOf r).google_place_id = r.google_place_id := rfl

/-- `dataOf` keeps the id column. -/
theorem dataOf_id (r : MarketRow) : (dataOf r).id = r.id := rfl

/-- `dataOf` keeps the data fields. -/
theorem rowData_dataOf (r : MarketRow) : rowData (dataOf r) = rowData r := rfl

/-- Unfolding one step of `updRow`. -/
theorem updRow_cons (u : Nat × SupermarketData) (us : List (Nat × SupermarketData))
    (now : Int) (r : MarketRow) :
    updRow (u :: us) now r =
      updRow us now (if r.id = u.1 then overwriteRow r u.2 now else r) := rfl

/-- The update loop is the pointwise iteration of `updRow`. -/
theorem applyUpdates_eq_map (us : List (Nat × SupermarketData)) (now : Int) :
    ∀ rows : List MarketRow, applyUpdates rows us now = rows.map (updRow us now) := by
  induction us with
  | nil =>
    intro rows
    calc rows = rows.map id := (List.map_id rows).symm
      _ = rows.map (updRow [] now) := List.map_congr_left fun r _ => rfl
  | cons u us ih =>
    intro rows
    have h1 : applyUpdates rows (u :: us) now =
        applyUpdates (applyUpdate rows u.1 u.2 now) us now := by
      simp [applyUpdates]
    rw [h1, ih, applyUpdate, List.map_map]
    refine List.map_congr_left ?_
    intro r _
    simp [updRow, Function.comp]

theorem updRow_id (us : List (Nat × SupermarketData)) (now : Int) :
    ∀ r : MarketRow, (updRow us now r).id = r.id := by
  induction us with
  | nil => intro r; rfl
  | cons u us ih =>
    intro r
    rw [updRow_cons]
    by_cases h : r.id = u.1 <;> simp [h, ih, overwriteRow_id]

theorem updRow_created_at (us : List (Nat × SupermarketData)) (now : Int) :
    ∀ r : MarketRow, (updRow us now r).created_at = r.created_at := by
  induction us with
  | nil => intro r; rfl
  | cons u us ih =>
    intro r
    rw [updRow_cons]
    by_cases h : r.id = u.1 <;> simp [h, ih, overwriteRow]

/-- A row matched by no update id passes untouched. -/
theorem updRow_untouched (now : Int) :
    ∀ (us : List (Nat × SupermarketData)) (r : MarketRow),
      (∀ u ∈ us, u.1 ≠ r.id) → updRow us now r = r := by
  intro us
  induction us with
  | nil => intro r _; rfl
  | cons u us ih =>
    intro r h
    rw [updRow_cons, if_neg fun hc => h u (List.mem_cons_self u us) hc.symm]
    exact ih r fun u2 hu2 => h u2 (List.mem_cons_of_mem u hu2)

/-- A row matched by at least one update ends as the overwrite of one of
the matching updates. -/
theorem updRow_last (now : Int) :
    ∀ (us : List (Nat × SupermarketData)) (r : MarketRow),
      updRow us now r = r ∨
        ∃ u ∈ us, u.1 = r.id ∧ updRow us now r = overwriteRow r u.2 now := by
  intro us
  induction us with
  | nil => intro r; exact Or.inl rfl
  | cons u us ih =>
    intro r
    rw [updRow_cons]
    by_cases h : r.id = u.1
    · rw [if_pos h]
      rcases ih (overwriteRow r u.2 now) with h2 | ⟨u2, hu2, hid2, heq2⟩
      · exact Or.inr ⟨u, List.mem_cons_self u us, h.symm, h2⟩
      · refine Or.inr ⟨u2, List.mem_cons_of_mem u hu2, ?_, ?_⟩
        · rw [overwriteRow_id] at hid2
          exact hid2
        · rw [heq2]
          rfl
    · rw [if_neg h]
      rcases ih r with h2 | ⟨u2, hu2, hid2, heq2⟩
      · exact Or.inl h2
      · exact Or.inr ⟨u2, List.mem_cons_of_mem u hu2, hid2, heq2⟩

/-- `find?` only depends on the predicate's values on the list. -/
theorem find?_congr_on {α : Type} (p q : α → Bool) :
    ∀ l : List α, (∀ a ∈ l, p a = q a) → l.find? p = l.find? q := by
  intro l
  induction l with
  | nil => intro _; rfl
  | cons a as ih =>
    intro h
    have ha := h a (List.mem_cons_self a as)
    rw [List.find?_cons, List.find?_cons, ha]
    cases q a
    · exact ih fun x hx => h x (List.mem_cons_of_mem a hx)
    · rfl

/-- A truthy lookup key comes from an equal raw id. -/
theorem gkey_eq_some {m : SupermarketData} {g : Str} (h : gkey m = some g) :
    m.google_place_id = some g ∧ g ≠ [] := by
  match hm : m.google_place_id with
  | none => simp [gkey, hm] at h
  | some g0 =>
    by_cases hg : g0.isEmpty
    · simp [gkey, hm, hg] at h
    · simp only [gkey, hm, hg, Bool.false_eq_true, if_false, Option.some.injEq] at h
      subst h
      refine ⟨rfl, ?_⟩
      intro hnil
      rw [hnil] at hg
      simp at hg

/-- A successful lookup presupposes a truthy key. -/
theorem lookupRow_isSome_gkey {rows : List MarketRow} {m : SupermarketData}
    {ex : MarketRow} (h : lookupRow rows m = some ex) : ∃ g, gkey m = some g := by
  match hg : gkey m with
  | none => rw [lookupRow, hg] at h; exact absurd h (by simp)
  | some g => exact ⟨g, rfl⟩

/-- Unfolding the lookup at a truthy key. -/
theorem lookupRow_eq_find {rows : List MarketRow} {m : SupermarketData} {g : Str}
    (hg : gkey m = some g) :
    lookupRow rows m = rows.find? fun r => r.google_place_id == some g := by
  rw [lookupRow, hg]

/-- The row found by a lookup is in the store. -/
theorem lookupRow_mem {rows : List MarketRow} {m : SupermarketData} {ex : MarketRow}
    (h : lookupRow rows m = some ex) : ex ∈ rows := by
  rcases lookupRow_isSome_gkey h with ⟨g, hg⟩
  rw [lookupRow_eq_find hg] at h
  exact List.mem_of_find?_eq_some h

/-- The row found by a lookup carries the looked-up id. -/
theorem lookupRow_gid {rows : List MarketRow} {m : SupermarketData} {ex : MarketRow}
    {g : Str} (hg : gkey m = some g) (h : lookupRow rows m = some ex) :
    ex.google_place_id = some g := by
  rw [lookupRow_eq_find hg] at h
  have := List.find?_some h
  simpa using this

/-- In a well-formed store, rows are determined by their id. -/
theorem wf_id_unique {st : Store} (hWF : StoreWF st) {r1 r2 : MarketRow}
    (h1 : r1 ∈ st.rows) (h2 : r2 ∈ st.rows) (heq : r1.id = r2.id) : r1 = r2 :=
  List.inj_on_of_nodup_map hWF.1 h1 h2 heq

/-- Membership in the update list. -/
theorem mem_mkUpdates {rows : List MarketRow} {batch : List SupermarketData}
    {u : Nat × SupermarketData} :
    u ∈ mkUpdates rows batch ↔
      ∃ m ∈ batch, ∃ ex, lookupRow rows m = some ex ∧ u = (ex.id, m) := by
  simp only [mkUpdates, List.mem_filterMap, Option.map_eq_some']
  constructor
  · rintro ⟨m, hm, ex, hex, hu⟩
    exact ⟨m, hm, ex, hex, hu.symm⟩
  · rintro ⟨m, hm, ex, hex, hu⟩
    exact ⟨m, hm, ex, hex, hu.symm⟩

/-- Every update id belongs to a stored row and is below the generator. -/
theorem mkUpdates_id_lt {st : Store} (hWF : StoreWF st) {batch : List SupermarketData}
    {u : Nat × SupermarketData} (hu : u ∈ mkUpdates st.rows batch) : u.1 < st.nextId := by
  rcases mem_mkUpdates.mp hu with ⟨m, _, ex, hex, hu2⟩
  rw [hu2]
  exact hWF.2 ex (lookupRow_mem hex)

/-- Under a well-formed store and duplicate-free batch keys, every update
aimed at the row found for `m` carries `m` itself. -/
theorem mkUpdates_matching {st : Store} (hWF : StoreWF st)
    {batch : List SupermarketData} (hbn : (batch.map gkey).Nodup)
    {m : SupermarketData} (hm : m ∈ batch) {ex : MarketRow}
    (hlk : lookupRow st.rows m = some ex) :
    ∀ u ∈ mkUpdates st.rows batch, u.1 = ex.id → u.2 = m := by
  intro u hu hid
  rcases mem_mkUpdates.mp hu with ⟨m2, hm2, ex2, hex2, hu2⟩
  rcases lookupRow_isSome_gkey hlk with ⟨g, hg⟩
  rcases lookupRow_isSome_gkey hex2 with ⟨g2, hg2⟩
  have hexeq : ex2 = ex := by
    refine wf_id_unique hWF (lookupRow_mem hex2) (lookupRow_mem hlk) ?_
    rw [hu2] at hid
    exact hid
  have hgid : ex.google_place_id = some g := lookupRow_gid hg hlk
  have hgid2 : ex2.google_place_id = some g2 := lookupRow_gid hg2 hex2
  rw [hexeq, hgid] at hgid2
  have hgg : gkey m2 = gkey m := by
    rw [hg, hg2]
    exact congrArg Option.some (Option.some.inj hgid2).symm
  have := List.inj_on_of_nodup_map hbn hm2 hm hgg
  rw [hu2, this]

/-- The update loop never changes the id column of a stored row. -/
theorem updRow_gid_invariant {st : Store} (hWF : StoreWF st)
    (batch : List SupermarketData) (now : Int) {r : MarketRow} (hr : r ∈ st.rows) :
    (updRow (mkUpdates st.rows batch) now r).google_place_id = r.google_place_id := by
  rcases updRow_last now (mkUpdates st.rows batch) r with h | ⟨u, hu, hid, heq⟩
  · rw [h]
  · rcases mem_mkUpdates.mp hu with ⟨m2, _, ex2, hex2, hu2⟩
    rcases lookupRow_isSome_gkey hex2 with ⟨g2, hg2⟩
    have hexr : ex2 = r := by
      refine wf_id_unique hWF (lookupRow_mem hex2) hr ?_
      rw [hu2] at hid
      exact hid
    have hgid2 : r.google_place_id = some g2 := hexr ▸ lookupRow_gid hg2 hex2
    have hraw : m2.google_place_id = some g2 := (gkey_eq_some hg2).1
    rw [heq]
    show u.2.google_place_id = r.google_place_id
    rw [hu2]
    show m2.google_place_id = r.google_place_id
    rw [hraw, hgid2]

/-- A row matched by some update ends as the overwrite of one of the
matching updates. -/
theorem updRow_hit (now : Int) :
    ∀ (us : List (Nat × SupermarketData)) (r : MarketRow)
      (u0 : Nat × SupermarketData), u0 ∈ us → u0.1 = r.id →
      ∃ u ∈ us, u.1 = r.id ∧ updRow us now r = overwriteRow r u.2 now := by
  intro us
  induction us with
  | nil => intro r u0 h0 _; simp at h0
  | cons u us ih =>
    intro r u0 h0 hid0
    rw [updRow_cons]
    by_cases h : r.id = u.1
    · rw [if_pos h]
      rcases updRow_last now us (overwriteRow r u.2 now) with h2 | ⟨u2, hu2, hid2, heq2⟩
      · exact ⟨u, List.mem_cons_self u us, h.symm, h2⟩
      · refine ⟨u2, List.mem_cons_of_mem u hu2, ?_, ?_⟩
        · rw [overwriteRow_id] at hid2
          exact hid2
        · rw [heq2]
          rfl
    · rw [if_neg h]
      have h0' : u0 ∈ us := by
        rcases List.mem_cons.mp h0 with h0 | h0
        · exact absurd (h0 ▸ hid0).symm h
        · exact h0
      rcases ih r u0 h0' hid0 with ⟨u2, hu2, hid2, heq2⟩
      exact ⟨u2, List.mem_cons_of_mem u hu2, hid2, heq2⟩

/-- Shape of the freshly inserted rows: each carries the data and the id
of one record, with consecutive ids. -/
theorem insertRowsGo_shape (now : Int) :
    ∀ (news : List SupermarketData) (nid : Nat) (r : MarketRow),
      r ∈ insertRowsGo nid now news →
      (∃ m0 ∈ news, rowData r = m0 ∧ r.google_place_id = m0.google_place_id) ∧
        nid ≤ r.id ∧ r.id < nid + news.length := by
  intro news
  induction news with
  | nil => intro nid r hr; simp [insertRowsGo] at hr
  | cons m rest ih =>
    intro nid r hr
    rcases List.mem_cons.mp hr with hr | hr
    · subst hr
      refine ⟨⟨m, List.mem_cons_self m rest, rfl, rfl⟩, le_refl _, ?_⟩
      simp only [rowFromData, List.length_cons]
      omega
    · rcases ih (nid + 1) r hr with ⟨⟨m0, hm0, hd, hgid⟩, hlo, hhi⟩
      refine ⟨⟨m0, List.mem_cons_of_mem m hm0, hd, hgid⟩, by omega, ?_⟩
      simp only [List.length_cons]
      omega

/-- The inserted rows have distinct ids. -/
theorem insertRowsGo_ids_nodup (now : Int) :
    ∀ (news : List SupermarketData) (nid : Nat),
      ((insertRowsGo nid now news).map MarketRow.id).Nodup := by
  intro news
  induction news with
  | nil => intro nid; simp [insertRowsGo]
  | cons m rest ih =>
    intro nid
    simp only [insertRowsGo, List.map_cons, List.nodup_cons]
    refine ⟨?_, ih (nid + 1)⟩
    intro hmem
    rcases List.mem_map.mp hmem with ⟨r, hr, hid⟩
    have := (insertRowsGo_shape now rest (nid + 1) r hr).2.1
    rw [hid] at this
    simp [rowFromData] at this

/-- Looking up a gid among freshly inserted rows is looking it up among
the inserted records. -/
theorem insertRowsGo_find?_eq (now : Int) (g : Str) :
    ∀ (news : List SupermarketData) (nid : Nat),
      Option.map rowData
        ((insertRowsGo nid now news).find? fun r => r.google_place_id == some g) =
        news.find? fun m => m.google_place_id == some g := by
  intro news
  induction news with
  | nil => intro nid; rfl
  | cons m rest ih =>
    intro nid
    rw [insertRowsGo, List.find?_cons, List.find?_cons]
    have hpred : ((rowFromData nid m now).google_place_id == some g) =
        (m.google_place_id == some g) := rfl
    rw [hpred]
    cases m.google_place_id == some g
    · exact ih (nid + 1)
    · rfl

/-- Under truthy, duplicate-free keys that all missed the store, the
batched insert cannot violate the unique index. -/
theorem insertConflict_false (st : Store) (news : List SupermarketData)
    (htruthy : ∀ m ∈ news, (gkey m).isSome = true)
    (hnodup : (news.map gkey).Nodup)
    (hmiss : ∀ m ∈ news, lookupRow st.rows m = none) :
    insertConflict st news = false := by
  have hgids : ∀ m ∈ news, ∃ g, gkey m = some g ∧ m.google_place_id = some g := by
    intro m hm
    match hg : gkey m with
    | none =>
      have ht := htruthy m hm
      rw [hg] at ht
      simp at ht
    | some g => exact ⟨g, rfl, (gkey_eq_some hg).1⟩
  have hnodup2 : (news.filterMap fun m => m.google_place_id).Nodup := by
    clear hmiss
    induction news with
    | nil => simp
    | cons m rest ih =>
      rcases hgids m (List.mem_cons_self m rest) with ⟨g, hg, hraw⟩
      simp only [List.filterMap_cons, hraw]
      simp only [List.map_cons, List.nodup_cons] at hnodup
      refine List.Nodup.cons ?_ (ih (fun m2 hm2 => htruthy m2 (List.mem_cons_of_mem m hm2))
        hnodup.2 (fun m2 hm2 => hgids m2 (List.mem_cons_of_mem m hm2)))
      intro hgmem
      rcases List.mem_filterMap.mp hgmem with ⟨m2, hm2, hraw2⟩
      rcases hgids m2 (List.mem_cons_of_mem m hm2) with ⟨g2, hg2, hraw2b⟩
      rw [hraw2b] at hraw2
      have : gkey m2 = gkey m := by
        rw [hg, hg2, Option.some.inj hraw2]
      exact hnodup.1 (this ▸ List.mem_map_of_mem gkey hm2)
  have hoverlap : ∀ g ∈ news.filterMap (fun m => m.google_place_id),
      ¬(g ∈ storeGids st.rows) := by
    intro g hgmem hgstore
    rcases List.mem_filterMap.mp hgmem with ⟨m, hm, hraw⟩
    rcases hgids m hm with ⟨g2, hg2, hraw2⟩
    rw [hraw2] at hraw
    have hgeq : g2 = g := Option.some.inj hraw
    rcases List.mem_filterMap.mp hgstore with ⟨r, hr, hrg⟩
    have hlk := hmiss m hm
    rw [lookupRow_eq_find hg2] at hlk
    have := List.find?_eq_none.mp hlk r hr
    rw [hgeq, hrg] at this
    simp at this
  rw [insertConflict]
  simp only [Bool.or_eq_false_iff]
  constructor
  · simp [hnodup2]
  · rw [List.any_eq_false]
    intro g hg
    simpa using hoverlap g hg

/-- The new records of a batch (those whose lookup missed). -/
def batchNews (st : Store) (batch : List SupermarketData) : List SupermarketData :=
  batch.filter fun m => (lookupRow st.rows m).isNone

/-- The store after the batch's insert step. -/
def batchInsertSt (st : Store) (batch : List SupermarketData) (now : Int) : Store :=
  if (batchNews st batch).isEmpty then st
  else if insertConflict st (batchNews st batch) then st
  else insertRows st (batchNews st batch) now

/-- `processBatch` split into its insert and update steps. -/
theorem processBatch_eq (st : Store) (batch : List SupermarketData) (now : Int) :
    processBatch st batch now =
      { rows := applyUpdates (batchInsertSt st batch now).rows
          (mkUpdates st.rows batch) now
        nextId := (batchInsertSt st batch now).nextId } := rfl

/-- The final batch rows, as the update iteration mapped over the rows
after the insert step. -/
theorem processBatch_rows (st : Store) (batch : List SupermarketData) (now : Int) :
    (processBatch st batch now).rows =
      (batchInsertSt st batch now).rows.map (updRow (mkUpdates st.rows batch) now) := by
  rw [processBatch_eq, applyUpdates_eq_map]

/-- The insert step appends fresh rows: each new row carries one new
record's data, a fresh id, and the ids are distinct. -/
theorem batchInsertSt_shape (st : Store) (batch : List SupermarketData) (now : Int) :
    ∃ newRows,
      (batchInsertSt st batch now).rows = st.rows ++ newRows ∧
      st.nextId ≤ (batchInsertSt st batch now).nextId ∧
      (∀ r ∈ newRows, st.nextId ≤ r.id ∧ r.id < (batchInsertSt st batch now).nextId) ∧
      (∀ r ∈ newRows, ∃ m0 ∈ batchNews st batch, rowData r = m0 ∧
        r.google_place_id = m0.google_place_id) ∧
      (newRows.map MarketRow.id).Nodup := by
  unfold batchInsertSt
  by_cases h1 : (batchNews st batch).isEmpty = true
  · rw [if_pos h1]
    exact ⟨[], (List.append_nil _).symm, le_refl _, by simp, by simp, by simp⟩
  · rw [if_neg h1]
    by_cases h2 : insertConflict st (batchNews st batch) = true
    · rw [if_pos h2]
      exact ⟨[], (List.append_nil _).symm, le_refl _, by simp, by simp, by simp⟩
    · rw [if_neg h2]
      refine ⟨insertRowsGo st.nextId now (batchNews st batch), rfl,
        Nat.le_add_right _ _, ?_, ?_, insertRowsGo_ids_nodup now _ _⟩
      · intro r hr
        have h := insertRowsGo_shape now (batchNews st batch) st.nextId r hr
        exact ⟨h.2.1, h.2.2⟩
      · intro r hr
        exact (insertRowsGo_shape now (batchNews st batch) st.nextId r hr).1

/-- Processing a batch preserves store well-formedness. -/
theorem processBatch_wf (st : Store) (batch : List SupermarketData) (now : Int)
    (hWF : StoreWF st) : StoreWF (processBatch st batch now) := by
  rcases batchInsertSt_shape st batch now with ⟨newRows, hsh, hle, hbounds, _, hnodup⟩
  have hids : (processBatch st batch now).rows.map MarketRow.id =
      st.rows.map MarketRow.id ++ newRows.map MarketRow.id := by
    rw [processBatch_rows, hsh, List.map_append, List.map_append, List.map_map,
      List.map_map]
    have hcongr : ∀ l : List MarketRow,
        l.map (MarketRow.id ∘ updRow (mkUpdates st.rows batch) now) =
          l.map MarketRow.id :=
      fun l => List.map_congr_left fun r _ => updRow_id (mkUpdates st.rows batch) now r
    rw [hcongr, hcongr]
  constructor
  · rw [hids, List.nodup_append]
    refine ⟨hWF.1, hnodup, ?_⟩
    intro a ha hb
    rcases List.mem_map.mp ha with ⟨r1, hr1, hid1⟩
    rcases List.mem_map.mp hb with ⟨r2, hr2, hid2⟩
    have h1 := hWF.2 r1 hr1
    have h2 := (hbounds r2 hr2).1
    omega
  · intro r hr
    rw [processBatch_rows, hsh] at hr
    rcases List.mem_map.mp hr with ⟨r0, hr0, hre⟩
    have hid : r.id = r0.id := by rw [← hre, updRow_id]
    have hnext : (processBatch st batch now).nextId =
        (batchInsertSt st batch now).nextId := rfl
    rw [hnext, hid]
    rcases List.mem_append.mp hr0 with h | h
    · have := hWF.2 r0 h
      omega
    · exact (hbounds r0 h).2

/-- Processing a batch makes the store reflect each of the batch's
records. -/
theorem processBatch_establishes (st : Store) (batch : List SupermarketData)
    (now : Int) (hWF : StoreWF st)
    (htruthy : ∀ m2 ∈ batch, (gkey m2).isSome = true)
    (hbn : (batch.map gkey).Nodup) :
    ∀ m ∈ batch, reflects (processBatch st batch now).rows m := by
  intro m hm
  have hgk : ∃ g, gkey m = some g := by
    have ht := htruthy m hm
    match hg : gkey m with
    | none => rw [hg] at ht; simp at ht
    | some g => exact ⟨g, rfl⟩
  rcases hgk with ⟨g, hg⟩
  cases hlk : lookupRow st.rows m with
  | some ex =>
    rcases batchInsertSt_shape st batch now with ⟨newRows, hsh, _, _, _, _⟩
    rw [reflects, lookupRow_eq_find hg, processBatch_rows, List.find?_map, hsh,
      List.find?_append]
    have hcongr : st.rows.find?
        ((fun r => r.google_place_id == some g) ∘ updRow (mkUpdates st.rows batch) now) =
        st.rows.find? fun r => r.google_place_id == some g :=
      find?_congr_on _ _ st.rows fun r hr => by
        simp [Function.comp, updRow_gid_invariant hWF batch now hr]
    have hfind : st.rows.find? (fun r => r.google_place_id == some g) = some ex := by
      rw [← lookupRow_eq_find hg]
      exact hlk
    rw [hcongr, hfind]
    have humem : ((ex.id, m) : Nat × SupermarketData) ∈ mkUpdates st.rows batch :=
      mem_mkUpdates.mpr ⟨m, hm, ex, hlk, rfl⟩
    rcases updRow_hit now (mkUpdates st.rows batch) ex (ex.id, m) humem rfl with
      ⟨u, hu, huid, hueq⟩
    have hu2 : u.2 = m := mkUpdates_matching hWF hbn hm hlk u hu huid
    refine ⟨updRow (mkUpdates st.rows batch) now ex, rfl, ?_⟩
    rw [hueq, hu2, rowData_overwriteRow]
  | none =>
    have hmn : m ∈ batchNews st batch := List.mem_filter.mpr ⟨hm, by simp [hlk]⟩
    have hne : (batchNews st batch).isEmpty = false := by
      match hb : batchNews st batch with
      | [] => rw [hb] at hmn; simp at hmn
      | _ :: _ => rfl
    have htn : ∀ m2 ∈ batchNews st batch, (gkey m2).isSome = true :=
      fun m2 hm2 => htruthy m2 (List.mem_of_mem_filter hm2)
    have hnn : ((batchNews st batch).map gkey).Nodup :=
      hbn.sublist ((List.filter_sublist batch).map gkey)
    have hms : ∀ m2 ∈ batchNews st batch, lookupRow st.rows m2 = none := by
      intro m2 hm2
      have := (List.mem_filter.mp hm2).2
      simpa [Option.isNone_iff_eq_none] using this
    have hcf : insertConflict st (batchNews st batch) = false :=
      insertConflict_false st (batchNews st batch) htn hnn hms
    have hrows2 : (batchInsertSt st batch now).rows =
        st.rows ++ insertRowsGo st.nextId now (batchNews st batch) := by
      unfold batchInsertSt
      rw [if_neg (by simp [hne]), if_neg (by simp [hcf])]
      rfl
    rw [reflects, lookupRow_eq_find hg, processBatch_rows, hrows2, List.map_append,
      List.find?_append, List.find?_map, List.find?_map]
    have hcongr : st.rows.find?
        ((fun r => r.google_place_id == some g) ∘ updRow (mkUpdates st.rows batch) now) =
        st.rows.find? fun r => r.google_place_id == some g :=
      find?_congr_on _ _ st.rows fun r hr => by
        simp [Function.comp, updRow_gid_invariant hWF batch now hr]
    have hfindold : st.rows.find? (fun r => r.google_place_id == some g) = none := by
      rw [← lookupRow_eq_find hg]
      exact hlk
    have huntouched : ∀ r ∈ insertRowsGo st.nextId now (batchNews st batch),
        updRow (mkUpdates st.rows batch) now r = r := by
      intro r hr
      refine updRow_untouched now _ r fun u hu => ?_
      have h1 := mkUpdates_id_lt hWF hu
      have h2 := (insertRowsGo_shape now (batchNews st batch) st.nextId r hr).2.1
      omega
    have hcongr2 : (insertRowsGo st.nextId now (batchNews st batch)).find?
        ((fun r => r.google_place_id == some g) ∘ updRow (mkUpdates st.rows batch) now) =
        (insertRowsGo st.nextId now (batchNews st batch)).find?
          (fun r => r.google_place_id == some g) :=
      find?_congr_on _ _ _ fun r hr => by simp [Function.comp, huntouched r hr]
    rw [hcongr, hfindold, hcongr2]
    have hnewsfind := insertRowsGo_find?_eq now g (batchNews st batch) st.nextId
    have hraw : m.google_place_id = some g := (gkey_eq_some hg).1
    cases hf : (batchNews st batch).find? fun m2 => m2.google_place_id == some g with
    | none =>
      exfalso
      have := List.find?_eq_none.mp hf m hmn
      rw [hraw] at this
      simp at this
    | some m0 =>
      have hm0mem : m0 ∈ batchNews st batch := List.mem_of_find?_eq_some hf
      have hm0raw : m0.google_place_id = some g := by
        have := List.find?_some hf
        simpa using this
      have hm0g : gkey m0 = some g := by
        have hgne := (gkey_eq_some hg).2
        have : g.isEmpty = false := by
          cases g with
          | nil => exact absurd rfl hgne
          | cons c cs => rfl
        simp [gkey, hm0raw, this]
      have hm0eq : m0 = m :=
        List.inj_on_of_nodup_map hbn (List.mem_of_mem_filter hm0mem) hm
          (by rw [hm0g, hg])
      rw [hf] at hnewsfind
      cases hfr : (insertRowsGo st.nextId now (batchNews st batch)).find?
          fun r => r.google_place_id == some g with
      | none => rw [hfr] at hnewsfind; simp at hnewsfind
      | some r0 =>
        rw [hfr] at hnewsfind
        simp only [Option.map_some', Option.some.injEq] at hnewsfind
        have hr0mem : r0 ∈ insertRowsGo st.nextId now (batchNews st batch) :=
          List.mem_of_find?_eq_some hfr
        refine ⟨updRow (mkUpdates st.rows batch) now r0, rfl, ?_⟩
        rw [huntouched r0 hr0mem, hnewsfind, hm0eq]

/-- Processing a batch preserves reflection of any record whose key the
batch does not carry. -/
theorem processBatch_persists (st : Store) (batch : List SupermarketData) (now : Int)
    (hWF : StoreWF st) (m : SupermarketData) (hrefl : reflects st.rows m)
    (hdiff : ∀ m2 ∈ batch, gkey m2 ≠ gkey m) :
    reflects (processBatch st batch now).rows m := by
  rcases hrefl with ⟨ex, hlk, hdata⟩
  rcases lookupRow_isSome_gkey hlk with ⟨g, hg⟩
  rcases batchInsertSt_shape st batch now with ⟨newRows, hsh, _, _, _, _⟩
  rw [reflects, lookupRow_eq_find hg, processBatch_rows, List.find?_map, hsh,
    List.find?_append]
  have hcongr : st.rows.find?
      ((fun r => r.google_place_id == some g) ∘ updRow (mkUpdates st.rows batch) now) =
      st.rows.find? fun r => r.google_place_id == some g :=
    find?_congr_on _ _ st.rows fun r hr => by
      simp [Function.comp, updRow_gid_invariant hWF batch now hr]
  have hfind : st.rows.find? (fun r => r.google_place_id == some g) = some ex := by
    rw [← lookupRow_eq_find hg]
    exact hlk
  rw [hcongr, hfind]
  have huntouched : updRow (mkUpdates st.rows batch) now ex = ex := by
    refine updRow_untouched now _ ex fun u hu => ?_
    intro hid
    rcases mem_mkUpdates.mp hu with ⟨m2, hm2, ex2, hex2, hu2⟩
    rcases lookupRow_isSome_gkey hex2 with ⟨g2, hg2⟩
    have hexeq : ex2 = ex := by
      refine wf_id_unique hWF (lookupRow_mem hex2) (lookupRow_mem hlk) ?_
      rw [hu2] at hid
      exact hid
    have hgid : ex.google_place_id = some g := lookupRow_gid hg hlk
    have hgid2 : ex2.google_place_id = some g2 := lookupRow_gid hg2 hex2
    rw [hexeq, hgid] at hgid2
    have : gkey m2 = gkey m := by
      rw [hg2, hg]
      exact congrArg Option.some (Option.some.inj hgid2).symm
    exact hdiff m2 hm2 this
  exact ⟨ex, congrArg some huntouched, hdata⟩

/-- Processing a batch whose records the store already reflects changes
nothing but `last_updated` timestamps. -/
theorem processBatch_stable (st : Store) (batch : List SupermarketData) (now : Int)
    (hWF : StoreWF st) (hall : ∀ m ∈ batch, reflects st.rows m) :
    (processBatch st batch now).rows.map dataOf = st.rows.map dataOf ∧
      (processBatch st batch now).nextId = st.nextId := by
  have hnews : batchNews st batch = [] := by
    refine List.filter_eq_nil_iff.mpr ?_
    intro m hm
    rcases hall m hm with ⟨r, hr, _⟩
    simp [hr]
  have hinsert : batchInsertSt st batch now = st := by
    unfold batchInsertSt
    rw [hnews]
    rfl
  constructor
  · rw [processBatch_rows, hinsert, List.map_map]
    refine List.map_congr_left ?_
    intro r hr
    show dataOf (updRow (mkUpdates st.rows batch) now r) = dataOf r
    rcases updRow_last now (mkUpdates st.rows batch) r with h | ⟨u, hu, huid, hueq⟩
    · rw [h]
    · rcases mem_mkUpdates.mp hu with ⟨m2, hm2, ex2, hex2, hu2⟩
      rcases hall m2 hm2 with ⟨r0, hl0, hd0⟩
      have hexr0 : ex2 = r0 := by
        rw [hex2] at hl0
        exact Option.some.inj hl0
      have hexr : ex2 = r := by
        refine wf_id_unique hWF (lookupRow_mem hex2) hr ?_
        rw [hu2] at huid
        exact huid
      have hrd : rowData r = u.2 := by
        rw [hu2]
        show rowData r = m2
        rw [← hexr, hexr0]
        exact hd0
      rw [hueq]
      exact dataOf_overwriteRow_self r u.2 now hrd
  · rw [processBatch_eq]
    show (batchInsertSt st batch now).nextId = st.nextId
    rw [hinsert]

/-- Timestamp-stripped equality of stores determines the gid lookups up to
timestamps. -/
theorem find?_gid_map_dataOf :
    ∀ rows1 rows2 : List MarketRow, rows1.map dataOf = rows2.map dataOf →
      ∀ g : Str,
        Option.map dataOf (rows1.find? fun r => r.google_place_id == some g) =
          Option.map dataOf (rows2.find? fun r => r.google_place_id == some g) := by
  intro rows1
  induction rows1 with
  | nil =>
    intro rows2 h g
    cases rows2 with
    | nil => rfl
    | cons r2 rs2 => simp at h
  | cons r1 rs1 ih =>
    intro rows2 h g
    cases rows2 with
    | nil => simp at h
    | cons r2 rs2 =>
      simp only [List.map_cons, List.cons.injEq] at h
      have hgid : r1.google_place_id = r2.google_place_id := by
        have := congrArg MarketRow.google_place_id h.1
        simpa [dataOf] using this
      rw [List.find?_cons, List.find?_cons, hgid]
      cases r2.google_place_id == some g
      · exact ih rs2 h.2 g
      · simpa using h.1

/-- Reflection only depends on the timestamp-stripped store. -/
theorem reflects_of_dataOf_eq {rows1 rows2 : List MarketRow}
    (h : rows1.map dataOf = rows2.map dataOf) (m : SupermarketData)
    (hr : reflects rows1 m) : reflects rows2 m := by
  rcases hr with ⟨r, hlk, hdata⟩
  rcases lookupRow_isSome_gkey hlk with ⟨g, hg⟩
  rw [lookupRow_eq_find hg] at hlk
  have hf := find?_gid_map_dataOf rows1 rows2 h g
  rw [hlk] at hf
  cases hf2 : rows2.find? fun r => r.google_place_id == some g with
  | none => rw [hf2] at hf; simp at hf
  | some r2 =>
    rw [hf2] at hf
    simp only [Option.map_some', Option.some.injEq] at hf
    refine ⟨r2, by rw [lookupRow_eq_find hg, hf2], ?_⟩
    calc rowData r2 = rowData (dataOf r2) := (rowData_dataOf r2).symm
      _ = rowData (dataOf r) := by rw [hf]
      _ = rowData r := rowData_dataOf r
      _ = m := hdata

/-- Folding batches preserves well-formedness. -/
theorem foldBatches_wf (now : Int) :
    ∀ (bs : List (List SupermarketData)) (st : Store), StoreWF st →
      StoreWF (bs.foldl (fun s b => processBatch s b now) st) := by
  intro bs
  induction bs with
  | nil => intro st h; exact h
  | cons b bs ih =>
    intro st h
    rw [List.foldl_cons]
    exact ih _ (processBatch_wf st b now h)

/-- Folding batches carrying other keys preserves reflection. -/
theorem foldBatches_persists (now : Int) :
    ∀ (bs : List (List SupermarketData)) (st : Store) (m : SupermarketData),
      StoreWF st → reflects st.rows m →
      (∀ b ∈ bs, ∀ m2 ∈ b, gkey m2 ≠ gkey m) →
      reflects ((bs.foldl (fun s b => processBatch s b now) st)).rows m := by
  intro bs
  induction bs with
  | nil => intro st m _ h _; exact h
  | cons b bs ih =>
    intro st m hWF h hdiff
    rw [List.foldl_cons]
    refine ih _ m (processBatch_wf st b now hWF) ?_ ?_
    · exact processBatch_persists st b now hWF m h
        (hdiff b (List.mem_cons_self b bs))
    · intro b2 hb2 m2 hm2
      exact hdiff b2 (List.mem_cons_of_mem b hb2) m2 hm2

/-- Folding batches establishes reflection of every processed record. -/
theorem foldBatches_establishes (now : Int) :
    ∀ (bs : List (List SupermarketData)) (st : Store), StoreWF st →
      (∀ m2 ∈ bs.flatten, (gkey m2).isSome = true) →
      ((bs.flatten.map gkey)).Nodup →
      ∀ m ∈ bs.flatten,
        reflects ((bs.foldl (fun s b => processBatch s b now) st)).rows m := by
  intro bs
  induction bs with
  | nil => intro st _ _ _ m hm; simp at hm
  | cons b bs ih =>
    intro st hWF htruthy hnodup m hm
    rw [List.flatten_cons] at hm htruthy
    rw [List.flatten_cons, List.map_append, List.nodup_append] at hnodup
    rw [List.foldl_cons]
    rcases List.mem_append.mp hm with hmb | hmbs
    · refine foldBatches_persists now bs (processBatch st b now) m
        (processBatch_wf st b now hWF) ?_ ?_
      · exact processBatch_establishes st b now hWF
          (fun m2 hm2 => htruthy m2 (List.mem_append_left _ hm2)) hnodup.1 m hmb
      · intro b2 hb2 m2 hm2 hgeq
        have h1 : gkey m ∈ b.map gkey := List.mem_map_of_mem gkey hmb
        have h2 : gkey m2 ∈ (bs.flatten).map gkey :=
          List.mem_map_of_mem gkey (List.mem_flatten.mpr ⟨b2, hb2, hm2⟩)
        rw [hgeq] at h2
        exact hnodup.2.2 h1 h2
    · exact ih (processBatch st b now) (processBatch_wf st b now hWF)
        (fun m2 hm2 => htruthy m2 (List.mem_append_right _ hm2)) hnodup.2.1 m hmbs

/-- Folding batches whose records the store already reflects changes
nothing but timestamps. -/
theorem foldBatches_stable (now : Int) :
    ∀ (bs : List (List SupermarketData)) (st : Store), StoreWF st →
      (∀ m ∈ bs.flatten, reflects st.rows m) →
      ((bs.foldl (fun s b => processBatch s b now) st)).rows.map dataOf =
        st.rows.map dataOf := by
  intro bs
  induction bs with
  | nil => intro st _ _; rfl
  | cons b bs ih =>
    intro st hWF hall
    rw [List.foldl_cons]
    have hb : ∀ m ∈ b, reflects st.rows m := fun m hm =>
      hall m (by rw [List.flatten_cons]; exact List.mem_append_left _ hm)
    have hstep := processBatch_stable st b now hWF hb
    have htrans : ∀ m ∈ bs.flatten, reflects (processBatch st b now).rows m := by
      intro m hm
      refine reflects_of_dataOf_eq hstep.1.symm m ?_
      exact hall m (by rw [List.flatten_cons]; exact List.mem_append_right _ hm)
    rw [ih (processBatch st b now) (processBatch_wf st b now hWF) htrans, hstep.1]

/-- The batches of 50 partition the input. -/
theorem chunksGo_flatten {α : Type} (size : Nat) (hsize : 0 < size) :
    ∀ (fuel : Nat) (l : List α), l.length ≤ fuel →
      (chunksGo size fuel l).flatten = l := by
  intro fuel
  induction fuel with
  | zero =>
    intro l hl
    have : l = [] := List.eq_nil_of_length_eq_zero (Nat.le_zero.mp hl)
    subst this
    rfl
  | succ fuel ih =>
    intro l hl
    cases l with
    | nil => rfl
    | cons x xs =>
      show (List.take size (x :: xs) :: chunksGo size fuel
        (List.drop size (x :: xs))).flatten = x :: xs
      rw [List.flatten_cons, ih (List.drop size (x :: xs)) ?_,
        List.take_append_drop]
      rw [List.length_drop]
      simp only [List.length_cons] at hl ⊢
      omega

/-- `toBatches` partitions the record list. -/
theorem toBatches_flatten {α : Type} (l : List α) : (toBatches l).flatten = l :=
  chunksGo_flatten 50 (by omega) l.length l (le_refl _)

/-- Counterexample for C2: a record carrying no external id is re-inserted
by every run — running the upsert phase twice on the same store with the
identical single-record input yields two rows instead of one. -/
theorem upsert_no_gid_duplicates_cx :
    recNoId1.google_place_id = none ∧
    (upsertSupermarkets { rows := [], nextId := 0 } [recNoId1] 1000).rows.length = 1 ∧
    (upsertSupermarkets (upsertSupermarkets { rows := [], nextId := 0 } [recNoId1] 1000)
      [recNoId1] 2000).rows.length = 2 ∧
    ((upsertSupermarkets (upsertSupermarkets { rows := [], nextId := 0 } [recNoId1] 1000)
      [recNoId1] 2000).rows.map rowData) = [recNoId1, recNoId1] := by
  decide

/-- C2 (amended): on a well-formed store, for inputs whose records all
carry truthy, pairwise-distinct external ids (as the deduplicated
reconciler output does), running the upsert phase twice with identical
records yields exactly the rows of a single run — same row count, and
every field of every row unchanged except the `last_updated`
timestamp. -/
theorem upsert_idempotent_modulo_timestamps (st : Store) (ms : List SupermarketData)
    (t1 t2 : Int) (hWF : StoreWF st)
    (htruthy : ∀ m ∈ ms, (gkey m).isSome = true)
    (hnodup : (ms.map gkey).Nodup) :
    (upsertSupermarkets (upsertSupermarkets st ms t1) ms t2).rows.map dataOf =
      (upsertSupermarkets st ms t1).rows.map dataOf ∧
    (upsertSupermarkets (upsertSupermarkets st ms t1) ms t2).rows.length =
      (upsertSupermarkets st ms t1).rows.length := by
  have hflat := toBatches_flatten ms
  have hWF1 : StoreWF (upsertSupermarkets st ms t1) :=
    foldBatches_wf t1 (toBatches ms) st hWF
  have hrefl : ∀ m ∈ ms, reflects (upsertSupermarkets st ms t1).rows m := by
    intro m hm
    refine foldBatches_establishes t1 (toBatches ms) st hWF ?_ ?_ m ?_
    · intro m2 hm2
      exact htruthy m2 (hflat ▸ hm2)
    · rw [hflat]
      exact hnodup
    · rw [hflat]
      exact hm
  have hstable : (upsertSupermarkets (upsertSupermarkets st ms t1) ms t2).rows.map
      dataOf = (upsertSupermarkets st ms t1).rows.map dataOf := by
    refine foldBatches_stable t2 (toBatches ms) (upsertSupermarkets st ms t1) hWF1 ?_
    intro m hm
    exact hrefl m (hflat ▸ hm)
  refine ⟨hstable, ?_⟩
  have := congrArg List.length hstable
  simpa using this

/-- Witness for C2 (amended): one record with a truthy external id,
upserted twice into an initially empty store, leaves the single row's
data unchanged on the second run. -/
theorem upsert_idempotent_modulo_timestamps_witness :
    (upsertSupermarkets (upsertSupermarkets { rows := [], nextId := 0 } [recShared1] 5)
      [recShared1] 9).rows.map dataOf =
      (upsertSupermarkets { rows := [], nextId := 0 } [recShared1] 5).rows.map dataOf := by
  exact (upsert_idempotent_modulo_timestamps { rows := [], nextId := 0 } [recShared1]
    5 9 (by constructor <;> simp [StoreWF]) (by decide) (by decide)).1

end BottleCheck
